import Mathlib

/-!
Verification of the GNNBackbone module (src/models/gnn/backbone.py).

The development shallow-embeds the policy and dispatch engine of the
backbone: the edge-feature normalizer, the per-operator input adaptation,
the lazy one-time layer build, and the forward composition.  Numeric
tensor entries are modelled as exact rationals; the graph-convolution
math itself (message passing, attention) is an external collaborator in
the source as well, so convolution evaluation and the readout linear map
are parameters (an Oracle) with their width contracts stated as explicit
hypotheses where a theorem needs them.  Dropout is modelled in
evaluation mode (identity); no claim below depends on its randomness.
Python exceptions are modelled with Except; warning emissions are
modelled as an explicit list of Notice values returned by each call,
alongside the per-instance one-time flags.
-/

deriving instance DecidableEq for Except

/-- Clamp-style maximum on rationals (torch.clamp with a lower bound). -/
def qmax (a b : ℚ) : ℚ := if a ≤ b then b else a

/-- Minimum on rationals, used for the min reduction of a tensor. -/
def qmin (a b : ℚ) : ℚ := if a ≤ b then a else b

/-- The constant eps = 1e-8 used throughout the normalizer. -/
def eps : ℚ := 1 / 100000000

/-- Arithmetic mean of a list, modelling tensor.mean(dim=-1) on one row. -/
def listMean (r : List ℚ) : ℚ := r.sum / (r.length : ℚ)

/-- Elementwise clamp at zero, modelling torch.clamp(w, min=0.0). -/
def clamp0 (w : List ℚ) : List ℚ := w.map (fun v => qmax 0 v)

/-- A tensor that is either one-dimensional of shape E, or two-dimensional
of shape E x D; the second constructor records the static last dimension D
so that size(-1) is meaningful even with zero rows. -/
inductive Tensor where
  | t1 (data : List ℚ)
  | t2 (lastDim : Nat) (rows : List (List ℚ))
deriving DecidableEq, Repr

/-- Number of tensor dimensions (tensor.dim()). -/
def Tensor.dim : Tensor → Nat
  | .t1 _ => 1
  | .t2 _ _ => 2

/-- Size of the last dimension (tensor.size(-1)). -/
def Tensor.lastSize : Tensor → Nat
  | .t1 d => d.length
  | .t2 D _ => D

/-- A two-dimensional tensor is well formed when every row has the
declared width. -/
def Tensor.wf : Tensor → Prop
  | .t1 _ => True
  | .t2 D rows => ∀ r ∈ rows, r.length = D

/-- Embedding of edge_weight_from_attr: convert edge_attr (shape E or
E x D) to a scalar weight per edge.  A 1-dimensional input, or a
2-dimensional input with last dimension 1, is used directly (squeezed);
otherwise the mode selects first_inv, mean_inv, or the default auto
min-max inversion.  The auto branch errors on an empty edge set exactly
where torch.min of an empty tensor raises.  The result is clamped at 0. -/
def edge_weight_from_attr (edge_attr : Tensor) (mode : String) : Except String (List ℚ) :=
  match edge_attr with
  | .t1 w => .ok (clamp0 w)
  | .t2 D rows =>
    if D = 1 then
      .ok (clamp0 (rows.map (fun r => r.headI)))
    else if mode = "first_inv" then
      .ok (clamp0 (rows.map (fun r => 1 / (r.headI + eps))))
    else if mode = "mean_inv" then
      .ok (clamp0 (rows.map (fun r => 1 / (listMean r + eps))))
    else
      match rows.map listMean with
      | [] => .error "min of an empty tensor"
      | m0 :: ms =>
        let mmin := ms.foldl qmin m0
        let mmax := ms.foldl qmax m0
        if eps < mmax - mmin then
          .ok (clamp0 ((m0 :: ms).map (fun v => 1 - (v - mmin) / (mmax - mmin + eps))))
        else
          .ok (clamp0 ((m0 :: ms).map (fun _ => 1)))

/-- The operator kinds of the supported convolution classes. -/
inductive ConvKind where
  | gcn | gat | gatv2 | sage | gin | gine
deriving DecidableEq, Repr

/-- One convolution layer as built by make_conv: its operator kind, its
input and output widths, and (for gine only) the edge feature width
passed to the constructor.  Library hyperparameters that the backbone
fixes (heads=1, normalize=True, the inner MLPs) carry no policy content
and are not modelled. -/
structure ConvLayer where
  kind : ConvKind
  in_dim : Nat
  out_dim : Nat
  edge_dim : Option Nat
deriving DecidableEq, Repr

/-- Embedding of GNNBackbone._make_conv: dispatch on the operator-kind
string; gine requires a known edge width; an unrecognized string is an
error (raised only when this function runs, i.e. at build time). -/
def make_conv (ct : String) (in_dim out_dim : Nat) (edge_dim : Option Nat) :
    Except String ConvLayer :=
  if ct = "gcn" then .ok ⟨.gcn, in_dim, out_dim, none⟩
  else if ct = "gat" then .ok ⟨.gat, in_dim, out_dim, none⟩
  else if ct = "gatv2" then .ok ⟨.gatv2, in_dim, out_dim, none⟩
  else if ct = "sage" then .ok ⟨.sage, in_dim, out_dim, none⟩
  else if ct = "gin" then .ok ⟨.gin, in_dim, out_dim, none⟩
  else if ct = "gine" then
    match edge_dim with
    | none => .error "GINEConv requires edge_dim at layer build time"
    | some d => .ok ⟨.gine, in_dim, out_dim, some d⟩
  else .error ("Unsupported conv_type: " ++ ct)

/-- The warning categories the backbone can emit. -/
inductive Notice where
  | edgeVIgnored
  | gcnDerivFailed
  | edgeAttrIgnored
  | deprecatedDims
deriving DecidableEq, Repr

/-- Per-instance state of a GNNBackbone: the immutable configuration,
the lazy build state, and the one-time warning flags. -/
structure GNNBackbone where
  conv_type : String
  hidden_dims : List Nat
  out_dim : Nat
  residue_logits : Bool
  gcn_edge_mode : String
  gine_missing_edge_policy : String
  built : Bool
  edge_dim : Option Nat
  convs : List ConvLayer
  readout_in : Option Nat
  warned_edge_ignored : Bool
  warned_edge_v_ignored : Bool
deriving DecidableEq, Repr

/-- ASCII lower-casing of one character, modelling str.lower() on the
operator-kind strings. -/
def lowerChar (c : Char) : Char :=
  if c.isUpper then Char.ofNat (c.toNat + 32) else c

/-- ASCII lower-casing of a string. -/
def lowerStr (s : String) : String := ⟨s.data.map lowerChar⟩

/-- Embedding of GNNBackbone.__init__: lower-case the operator kind,
fall back from a missing hidden_dims to the deprecated dims alias with a
compatibility warning, reject a missing width list, and initialize the
lazy-build and warning state.  The operator-kind string itself is not
validated here. -/
def GNNBackbone.init (conv_type : String) (hidden_dims : Option (List Nat))
    (out_dim : Nat) (residue_logits : Bool) (gcn_edge_mode : String)
    (gine_missing_edge_policy : String) (legacy_dims : Option (List Nat)) :
    Except String (GNNBackbone × List Notice) :=
  let resolved : Option (List Nat) × List Notice :=
    match hidden_dims, legacy_dims with
    | none, some d => (some d, [Notice.deprecatedDims])
    | hd, _ => (hd, [])
  match resolved.1 with
  | none => .error "hidden_dims must not be missing"
  | some hd =>
    .ok ({ conv_type := lowerStr conv_type
           hidden_dims := hd
           out_dim := out_dim
           residue_logits := residue_logits
           gcn_edge_mode := gcn_edge_mode
           gine_missing_edge_policy := gine_missing_edge_policy
           built := false
           edge_dim := none
           convs := []
           readout_in := none
           warned_edge_ignored := false
           warned_edge_v_ignored := false }, resolved.2)

/-- Loop body of GNNBackbone._build_layers: one conv per hidden width,
chaining the previous width into the next layer; gine layers receive the
edge width, all others receive none. -/
def build_loop (ct : String) (ed : Option Nat) : Nat → List Nat → Except String (List ConvLayer)
  | _, [] => .ok []
  | prev, d :: rest => do
    let c ← make_conv ct prev d (if ct = "gine" then ed else none)
    let cs ← build_loop ct ed d rest
    pure (c :: cs)

/-- Embedding of GNNBackbone._build_layers: build the conv stack, set the
readout input width to the sum of hidden widths, record the edge width,
and flip the built flag.  An error in the loop leaves the state
untouched, matching the Python attribute assignments that only happen
after the loop completes. -/
def build_layers (b : GNNBackbone) (in_dim : Nat) (ed : Option Nat) :
    Except String GNNBackbone :=
  (build_loop b.conv_type ed in_dim b.hidden_dims).map fun ls =>
    { b with convs := ls
             readout_in := some b.hidden_dims.sum
             edge_dim := ed
             built := true }

/-- A raw graph batch as consumed by forward: node features, edge list,
optional edge feature tensor, optional precomputed scalar weights, the
unrelated edge_v field, and the optional graph-assignment index. -/
structure BatchData where
  x : List (List ℚ)
  edge_index : List (Nat × Nat)
  edge_attr : Option Tensor
  edge_weight : Option (List ℚ)
  edge_v : Option Tensor
  batch : Option (List Nat)
deriving DecidableEq, Repr

/-- The adapted inputs produced by _prepare_inputs. -/
structure Prepared where
  x : List (List ℚ)
  edge_index : List (Nat × Nat)
  edge_attr : Option Tensor
  edge_weight : Option (List ℚ)
  batchIdx : List Nat
deriving DecidableEq, Repr

/-- First step of _prepare_inputs: the one-time notice that edge_v is
ignored by non-GVP backbones. -/
def step_edge_v (b : GNNBackbone) (d : BatchData) : GNNBackbone × List Notice :=
  if d.edge_v.isSome = true ∧ b.warned_edge_v_ignored = false then
    ({ b with warned_edge_v_ignored := true }, [Notice.edgeVIgnored])
  else (b, [])

/-- Second step of _prepare_inputs: for gcn with no explicit weight,
derive a weight from the edge feature tensor; any normalizer error is
caught, downgraded to no weight, and announced at most once. -/
def step_gcn (b : GNNBackbone) (d : BatchData) :
    GNNBackbone × List Notice × Option (List ℚ) :=
  if b.conv_type = "gcn" ∧ d.edge_weight = none then
    match d.edge_attr with
    | none => (b, [], d.edge_weight)
    | some a =>
      match edge_weight_from_attr a b.gcn_edge_mode with
      | .ok ew => (b, [], some ew)
      | .error _ =>
        if b.warned_edge_ignored = false then
          ({ b with warned_edge_ignored := true }, [Notice.gcnDerivFailed], none)
        else (b, [], none)
  else (b, [], d.edge_weight)

/-- Third step of _prepare_inputs: operators that ignore edge features
drop edge_attr, announcing the drop at most once. -/
def step_ignored (b : GNNBackbone) (d : BatchData) :
    GNNBackbone × List Notice × Option Tensor :=
  if b.conv_type = "gat" ∨ b.conv_type = "gatv2" ∨ b.conv_type = "sage" ∨ b.conv_type = "gin" then
    if d.edge_attr.isSome = true ∧ b.warned_edge_ignored = false then
      ({ b with warned_edge_ignored := true }, [Notice.edgeAttrIgnored], none)
    else (b, [], none)
  else (b, [], d.edge_attr)

/-- The instance state after the three adaptation steps ran in source
order. -/
def prep_state (b : GNNBackbone) (d : BatchData) : GNNBackbone :=
  (step_ignored (step_gcn (step_edge_v b d).1 d).1 d).1

/-- The edge weight produced by the adaptation steps. -/
def prep_ew (b : GNNBackbone) (d : BatchData) : Option (List ℚ) :=
  (step_gcn (step_edge_v b d).1 d).2.2

/-- The edge feature tensor surviving the adaptation steps. -/
def prep_ea (b : GNNBackbone) (d : BatchData) : Option Tensor :=
  (step_ignored (step_gcn (step_edge_v b d).1 d).1 d).2.2

/-- The notices emitted by the adaptation steps, in order. -/
def prep_warns (b : GNNBackbone) (d : BatchData) : List Notice :=
  (step_edge_v b d).2 ++ (step_gcn (step_edge_v b d).1 d).2.1 ++
    (step_ignored (step_gcn (step_edge_v b d).1 d).1 d).2.1

/-- Embedding of GNNBackbone._prepare_inputs: run the three adaptation
steps in source order, then enforce the gine requirement that an edge
feature tensor is present unless the zeros policy is configured, and
default the graph-assignment index to all zeros. -/
def prepare_inputs (b : GNNBackbone) (d : BatchData) :
    GNNBackbone × List Notice × Except String Prepared :=
  if (prep_state b d).conv_type = "gine" ∧ prep_ea b d = none ∧
      (prep_state b d).gine_missing_edge_policy ≠ "zeros" then
    (prep_state b d, prep_warns b d,
      .error "GINE needs edge_attr, or set gine_missing_edge_policy to zeros")
  else
    (prep_state b d, prep_warns b d, .ok ⟨d.x, d.edge_index, prep_ea b d, prep_ew b d,
      d.batch.getD (List.replicate d.x.length 0)⟩)

/-- The exact argument list a convolution layer receives in the forward
loop: GCNConv layers get the scalar weight, GINEConv layers get the edge
feature tensor, every other layer gets node features and connectivity
only.  Recording these per call gives the trace the hyperproperty claims
speak about. -/
inductive ConvInput where
  | withWeight (x : List (List ℚ)) (ei : List (Nat × Nat)) (w : Option (List ℚ))
  | withAttr (x : List (List ℚ)) (ei : List (Nat × Nat)) (attr : Option Tensor)
  | plain (x : List (List ℚ)) (ei : List (Nat × Nat))
deriving DecidableEq, Repr

/-- The edge feature tensor a layer input carries, if any. -/
def ConvInput.attrOf : ConvInput → Option Tensor
  | .withAttr _ _ a => a
  | _ => none

/-- Whether a layer input carries neither weight nor edge features. -/
def ConvInput.isPlain : ConvInput → Bool
  | .plain _ _ => true
  | _ => false

/-- External collaborator: evaluation of one convolution layer and of
the readout linear map.  The source delegates both to the library
(torch_geometric and torch.nn); their width contracts are stated as
hypotheses on the theorems that need them. -/
structure Oracle where
  conv : ConvLayer → ConvInput → List (List ℚ)
  lin : List ℚ → List ℚ

/-- Elementwise ReLU. -/
def relu (m : List (List ℚ)) : List (List ℚ) := m.map (fun r => r.map (fun v => qmax 0 v))

/-- Dropout in evaluation mode: the identity transform.  The training
randomness is external nondeterminism no claim here depends on. -/
def dropoutEval (m : List (List ℚ)) : List (List ℚ) := m

/-- The conv stack loop of forward: dispatch the layer arguments on the
concrete layer class (isinstance checks in the source), apply activation
and dropout, and retain every layer output; also return the trace of
layer inputs. -/
def run_convs (o : Oracle) (ei : List (Nat × Nat)) (ew : Option (List ℚ))
    (ea : Option Tensor) : List (List ℚ) → List ConvLayer →
    List (List (List ℚ)) × List ConvInput
  | _, [] => ([], [])
  | h, c :: cs =>
    let inp : ConvInput :=
      match c.kind with
      | .gcn => ConvInput.withWeight h ei ew
      | .gine => ConvInput.withAttr h ei ea
      | _ => ConvInput.plain h ei
    let h2 := dropoutEval (relu (o.conv c inp))
    let rest := run_convs o ei ew ea h2 cs
    (h2 :: rest.1, inp :: rest.2)

/-- Concatenation of the retained layer outputs along the feature axis
(torch.cat on dim -1); torch raises on an empty tensor list. -/
def hcat : List (List (List ℚ)) → Except String (List (List ℚ))
  | [] => .error "cat expects a nonempty list of tensors"
  | m :: ms => .ok (ms.foldl (fun a b => List.zipWith (fun r s => r ++ s) a b) m)

/-- Columnwise mean of a set of rows; an empty selection yields the zero
vector of the ambient width, matching scatter-mean semantics. -/
def colMean (w : Nat) (rows : List (List ℚ)) : List ℚ :=
  match rows with
  | [] => List.replicate w 0
  | r :: rs => (rs.foldl (fun a b => List.zipWith (fun u v => u + v) a b) r).map
      (fun v => v / ((rows.length : ℚ)))

/-- Graph-level mean pooling: one output row per graph index in the
range determined by the maximal index observed. -/
def global_mean_pool (h : List (List ℚ)) (batchIdx : List Nat) : List (List ℚ) :=
  let B := batchIdx.foldl max 0 + 1
  (List.range B).map fun g =>
    colMean h.headI.length (((h.zip batchIdx).filter (fun p => p.2 == g)).map (fun p => p.1))

/-- Width used for the zero edge-feature placeholder: the Python
expression self._edge_dim or 1, which also maps 0 to 1. -/
def edge_dim_or_1 : Option Nat → Nat
  | some k => if k = 0 then 1 else k
  | none => 1

/-- Lazy-build step at the top of forward: on an unbuilt instance, infer
the node input width from the batch and, for gine, the edge width from
the observed edge feature tensor (defaulting to 1 under the zeros
policy), then build the layer stack. -/
def infer_and_build (b : GNNBackbone) (p : Prepared) : Except String GNNBackbone :=
  if b.built = true then .ok b
  else
    let in_dim := p.x.headI.length
    if b.conv_type = "gine" then
      match p.edge_attr with
      | some a => build_layers b in_dim (some (if a.dim = 2 then a.lastSize else 1))
      | none =>
        if b.gine_missing_edge_policy = "zeros" then build_layers b in_dim (some 1)
        else .error "cannot infer edge_dim for GINE"
    else build_layers b in_dim none

/-- Result of one forward call: the output or the raised error, the
instance state afterwards, the trace of layer inputs, and the notices
emitted during the call. -/
structure FwdOut where
  out : Except String (List (List ℚ))
  st : GNNBackbone
  trace : List ConvInput
  warns : List Notice
deriving DecidableEq, Repr

/-- The edge feature tensor actually handed to the layer loop: the gine
zero placeholder when edge features are missing under the zeros policy,
otherwise the prepared tensor unchanged. -/
def gine_ea (st2 : GNNBackbone) (p : Prepared) : Option Tensor :=
  if st2.conv_type = "gine" ∧ p.edge_attr = none ∧ st2.gine_missing_edge_policy = "zeros"
  then some (Tensor.t2 (edge_dim_or_1 st2.edge_dim)
    (List.replicate p.edge_index.length (List.replicate (edge_dim_or_1 st2.edge_dim) 0)))
  else p.edge_attr

/-- The conv-stack run of one forward call on a built state. -/
def rc_of (o : Oracle) (st2 : GNNBackbone) (p : Prepared) :
    List (List (List ℚ)) × List ConvInput :=
  run_convs o p.edge_index p.edge_weight (gine_ea st2 p) p.x st2.convs

/-- Tail of forward after input preparation succeeded: lazy build, the
gine zero placeholder, the conv stack, concatenation, and the node- or
graph-level readout. -/
def forward_core (o : Oracle) (st1 : GNNBackbone) (warns : List Notice) (p : Prepared) :
    FwdOut :=
  match infer_and_build st1 p with
  | .error e => ⟨.error e, st1, [], warns⟩
  | .ok st2 =>
    match hcat (rc_of o st2 p).1 with
    | .error e => ⟨.error e, st2, (rc_of o st2 p).2, warns⟩
    | .ok h_cat =>
      if st2.residue_logits = true then
        ⟨.ok (h_cat.map o.lin), st2, (rc_of o st2 p).2, warns⟩
      else
        ⟨.ok ((global_mean_pool h_cat p.batchIdx).map o.lin), st2, (rc_of o st2 p).2, warns⟩

/-- Embedding of GNNBackbone.forward: prepare inputs (which can raise
for gine), then run the core.  The state is returned on every path,
including raising ones, because Python exceptions leave prior attribute
writes in place. -/
def GNNBackbone.forward (o : Oracle) (b : GNNBackbone) (d : BatchData) : FwdOut :=
  match (prepare_inputs b d).2.2 with
  | .error e => ⟨.error e, (prepare_inputs b d).1, [], (prepare_inputs b d).2.1⟩
  | .ok p => forward_core o (prepare_inputs b d).1 (prepare_inputs b d).2.1 p

/-- A sequence of forward calls against one instance, accumulating every
notice emitted over the whole sequence. -/
def run_seq (o : Oracle) : GNNBackbone → List BatchData → GNNBackbone × List Notice
  | b, [] => (b, [])
  | b, d :: ds =>
    let r := GNNBackbone.forward o b d
    let rest := run_seq o r.st ds
    (rest.1, r.warns ++ rest.2)

/-- Number of occurrences of one notice in an emission list. -/
def countN (n : Notice) : List Notice → Nat
  | [] => 0
  | w :: ws => (if w = n then 1 else 0) + countN n ws

/-- The operator kinds the dispatch recognizes. -/
def supported_conv_types : List String := ["gcn", "gat", "gatv2", "sage", "gin", "gine"]

/-- A concrete collaborator used by witnesses: every conv evaluation
returns a fixed two-node feature block of the layer's output width, and
the readout returns a single zero. -/
def oracle0 : Oracle where
  conv := fun c _ => List.replicate 2 (List.replicate c.out_dim 1)
  lin := fun _ => [0]

/-- A freshly constructed gcn backbone with one hidden layer. -/
def bGcnFresh : GNNBackbone where
  conv_type := "gcn"
  hidden_dims := [2]
  out_dim := 1
  residue_logits := false
  gcn_edge_mode := "auto"
  gine_missing_edge_policy := "error"
  built := false
  edge_dim := none
  convs := []
  readout_in := none
  warned_edge_ignored := false
  warned_edge_v_ignored := false

/-- A freshly constructed gine backbone under the fail policy. -/
def bGineFresh : GNNBackbone :=
  { bGcnFresh with conv_type := "gine", hidden_dims := [4] }

/-- A freshly constructed gat backbone. -/
def bGatFresh : GNNBackbone :=
  { bGcnFresh with conv_type := "gat" }

/-- A freshly constructed backbone with an unrecognized operator kind. -/
def bBogusFresh : GNNBackbone :=
  { bGcnFresh with conv_type := "bogus", hidden_dims := [3] }

/-- A two-node batch with no optional fields. -/
def dPlain : BatchData where
  x := [[1], [2]]
  edge_index := [(0, 1)]
  edge_attr := none
  edge_weight := none
  edge_v := none
  batch := none

/-- A two-node batch carrying a one-dimensional edge feature tensor. -/
def dAttr1 : BatchData :=
  { dPlain with edge_index := [(0, 1), (1, 0)], edge_attr := some (Tensor.t1 [5, 7]) }

/-- A batch carrying only the unrelated edge_v field. -/
def dEdgeV : BatchData :=
  { dPlain with edge_v := some (Tensor.t1 [1]) }

example : (GNNBackbone.forward oracle0 bGcnFresh dPlain).st.built = true := by decide
example : (GNNBackbone.forward oracle0 bGcnFresh dPlain).out.isOk = true := by decide
example : (GNNBackbone.forward oracle0 bGineFresh dPlain).out.isOk = false := by decide
example : (GNNBackbone.forward oracle0 bGineFresh dEdgeV).st.warned_edge_v_ignored = true := by
  decide
example : (GNNBackbone.forward oracle0 bBogusFresh dPlain).out.isOk = false := by decide
example : (GNNBackbone.forward oracle0 bGineFresh dAttr1).st.edge_dim = some 1 := by decide
example : (GNNBackbone.forward oracle0 bGatFresh dAttr1).warns = [Notice.edgeAttrIgnored] := by
  decide
example : (GNNBackbone.forward oracle0 bGineFresh dAttr1).trace
    = [ConvInput.withAttr [[1], [2]] [(0, 1), (1, 0)] (some (Tensor.t1 [5, 7]))] := by decide

example : edge_weight_from_attr (Tensor.t2 1 [[2]]) "mean_inv" = .ok [2] := by decide
example : edge_weight_from_attr (Tensor.t1 [3, -4]) "mean_inv" = .ok [3, 0] := by decide
example : (edge_weight_from_attr (Tensor.t2 2 []) "auto").isOk = false := by decide
example : edge_weight_from_attr (Tensor.t2 2 [[0,1],[1,2]]) "mean_inv"
    = .ok [100000000/50000001, 100000000/150000001] := by
  simp +decide [edge_weight_from_attr, clamp0, listMean, qmax, eps]
  norm_num

/-- Two backbone states that agree on everything except the one-time
warning flags. -/
def sameCore (a b : GNNBackbone) : Prop :=
  a.conv_type = b.conv_type ∧ a.hidden_dims = b.hidden_dims ∧ a.out_dim = b.out_dim ∧
  a.residue_logits = b.residue_logits ∧ a.gcn_edge_mode = b.gcn_edge_mode ∧
  a.gine_missing_edge_policy = b.gine_missing_edge_policy ∧ a.built = b.built ∧
  a.edge_dim = b.edge_dim ∧ a.convs = b.convs ∧ a.readout_in = b.readout_in

lemma sameCore_refl (a : GNNBackbone) : sameCore a a := by
  simp [sameCore]

lemma sameCore_trans {a b c : GNNBackbone} (h1 : sameCore a b) (h2 : sameCore b c) :
    sameCore a c := by
  obtain ⟨x1, x2, x3, x4, x5, x6, x7, x8, x9, x10⟩ := h1
  obtain ⟨y1, y2, y3, y4, y5, y6, y7, y8, y9, y10⟩ := h2
  exact ⟨x1.trans y1, x2.trans y2, x3.trans y3, x4.trans y4, x5.trans y5, x6.trans y6,
    x7.trans y7, x8.trans y8, x9.trans y9, x10.trans y10⟩

lemma step_edge_v_core (b : GNNBackbone) (d : BatchData) : sameCore (step_edge_v b d).1 b := by
  unfold step_edge_v
  split_ifs <;> simp [sameCore]

lemma step_edge_v_flag_v (b : GNNBackbone) (d : BatchData) :
    (step_edge_v b d).1.warned_edge_v_ignored = (b.warned_edge_v_ignored || d.edge_v.isSome) := by
  unfold step_edge_v
  split_ifs with h
  · simp [h.1, h.2]
  · rcases hv : d.edge_v.isSome <;> rcases hw : b.warned_edge_v_ignored <;>
      simp [hv, hw] at h ⊢

lemma step_edge_v_flag_e (b : GNNBackbone) (d : BatchData) :
    (step_edge_v b d).1.warned_edge_ignored = b.warned_edge_ignored := by
  unfold step_edge_v
  split_ifs <;> rfl

lemma step_edge_v_warns_cases (b : GNNBackbone) (d : BatchData) :
    (step_edge_v b d).2 = [] ∨
    ((step_edge_v b d).2 = [Notice.edgeVIgnored] ∧
      (step_edge_v b d).1.warned_edge_v_ignored = true ∧ b.warned_edge_v_ignored = false) := by
  unfold step_edge_v
  split_ifs with h
  · exact Or.inr ⟨rfl, rfl, h.2⟩
  · exact Or.inl rfl

lemma step_gcn_core (b : GNNBackbone) (d : BatchData) : sameCore (step_gcn b d).1 b := by
  unfold step_gcn
  by_cases h : b.conv_type = "gcn" ∧ d.edge_weight = none
  · rw [if_pos h]
    split
    · exact sameCore_refl b
    · split
      · exact sameCore_refl b
      · by_cases h2 : b.warned_edge_ignored = false
        · rw [if_pos h2]; exact ⟨rfl, rfl, rfl, rfl, rfl, rfl, rfl, rfl, rfl, rfl⟩
        · rw [if_neg h2]; exact sameCore_refl b
  · rw [if_neg h]; exact sameCore_refl b

lemma step_gcn_flag_v (b : GNNBackbone) (d : BatchData) :
    (step_gcn b d).1.warned_edge_v_ignored = b.warned_edge_v_ignored := by
  unfold step_gcn
  by_cases h : b.conv_type = "gcn" ∧ d.edge_weight = none
  · rw [if_pos h]
    split
    · rfl
    · split
      · rfl
      · by_cases h2 : b.warned_edge_ignored = false
        · rw [if_pos h2]
        · rw [if_neg h2]
  · rw [if_neg h]

lemma step_gcn_flag_e_mono (b : GNNBackbone) (d : BatchData)
    (h : b.warned_edge_ignored = true) :
    (step_gcn b d).1.warned_edge_ignored = true := by
  unfold step_gcn
  by_cases h1 : b.conv_type = "gcn" ∧ d.edge_weight = none
  · rw [if_pos h1]
    split
    · exact h
    · split
      · exact h
      · by_cases h2 : b.warned_edge_ignored = false
        · rw [h] at h2; simp at h2
        · rw [if_neg h2]; exact h
  · rw [if_neg h1]; exact h

lemma step_gcn_warns_cases (b : GNNBackbone) (d : BatchData) :
    (step_gcn b d).2.1 = [] ∨
    ((step_gcn b d).2.1 = [Notice.gcnDerivFailed] ∧
      (step_gcn b d).1.warned_edge_ignored = true ∧ b.warned_edge_ignored = false) := by
  unfold step_gcn
  by_cases h : b.conv_type = "gcn" ∧ d.edge_weight = none
  · rw [if_pos h]
    split
    · exact Or.inl rfl
    · split
      · exact Or.inl rfl
      · by_cases h2 : b.warned_edge_ignored = false
        · rw [if_pos h2]; exact Or.inr ⟨rfl, rfl, h2⟩
        · rw [if_neg h2]; exact Or.inl rfl
  · rw [if_neg h]; exact Or.inl rfl

lemma step_gcn_state_of_flag (b : GNNBackbone) (d : BatchData)
    (h : b.warned_edge_ignored = true) :
    (step_gcn b d).1 = b ∧ (step_gcn b d).2.1 = [] := by
  unfold step_gcn
  by_cases h1 : b.conv_type = "gcn" ∧ d.edge_weight = none
  · rw [if_pos h1]
    split
    · exact ⟨rfl, rfl⟩
    · split
      · exact ⟨rfl, rfl⟩
      · by_cases h2 : b.warned_edge_ignored = false
        · rw [h] at h2; simp at h2
        · rw [if_neg h2]; exact ⟨rfl, rfl⟩
  · rw [if_neg h1]; exact ⟨rfl, rfl⟩

lemma step_ignored_core (b : GNNBackbone) (d : BatchData) :
    sameCore (step_ignored b d).1 b := by
  unfold step_ignored
  by_cases h : b.conv_type = "gat" ∨ b.conv_type = "gatv2" ∨ b.conv_type = "sage" ∨
      b.conv_type = "gin"
  · rw [if_pos h]
    by_cases h2 : d.edge_attr.isSome = true ∧ b.warned_edge_ignored = false
    · rw [if_pos h2]; exact ⟨rfl, rfl, rfl, rfl, rfl, rfl, rfl, rfl, rfl, rfl⟩
    · rw [if_neg h2]; exact sameCore_refl b
  · rw [if_neg h]; exact sameCore_refl b

lemma step_ignored_flag_v (b : GNNBackbone) (d : BatchData) :
    (step_ignored b d).1.warned_edge_v_ignored = b.warned_edge_v_ignored := by
  unfold step_ignored
  by_cases h : b.conv_type = "gat" ∨ b.conv_type = "gatv2" ∨ b.conv_type = "sage" ∨
      b.conv_type = "gin"
  · rw [if_pos h]
    by_cases h2 : d.edge_attr.isSome = true ∧ b.warned_edge_ignored = false
    · rw [if_pos h2]
    · rw [if_neg h2]
  · rw [if_neg h]

lemma step_ignored_flag_e_mono (b : GNNBackbone) (d : BatchData)
    (h : b.warned_edge_ignored = true) :
    (step_ignored b d).1.warned_edge_ignored = true := by
  unfold step_ignored
  by_cases h1 : b.conv_type = "gat" ∨ b.conv_type = "gatv2" ∨ b.conv_type = "sage" ∨
      b.conv_type = "gin"
  · rw [if_pos h1]
    by_cases h2 : d.edge_attr.isSome = true ∧ b.warned_edge_ignored = false
    · simp [h] at h2
    · rw [if_neg h2]; exact h
  · rw [if_neg h1]; exact h

lemma step_ignored_warns_cases (b : GNNBackbone) (d : BatchData) :
    (step_ignored b d).2.1 = [] ∨
    ((step_ignored b d).2.1 = [Notice.edgeAttrIgnored] ∧
      (step_ignored b d).1.warned_edge_ignored = true ∧ b.warned_edge_ignored = false) := by
  unfold step_ignored
  by_cases h : b.conv_type = "gat" ∨ b.conv_type = "gatv2" ∨ b.conv_type = "sage" ∨
      b.conv_type = "gin"
  · rw [if_pos h]
    by_cases h2 : d.edge_attr.isSome = true ∧ b.warned_edge_ignored = false
    · rw [if_pos h2]; exact Or.inr ⟨rfl, rfl, h2.2⟩
    · rw [if_neg h2]; exact Or.inl rfl
  · rw [if_neg h]; exact Or.inl rfl

lemma step_ignored_state_of_flag (b : GNNBackbone) (d : BatchData)
    (h : b.warned_edge_ignored = true) :
    (step_ignored b d).1 = b ∧ (step_ignored b d).2.1 = [] := by
  unfold step_ignored
  by_cases h1 : b.conv_type = "gat" ∨ b.conv_type = "gatv2" ∨ b.conv_type = "sage" ∨
      b.conv_type = "gin"
  · rw [if_pos h1]
    have h2 : ¬(d.edge_attr.isSome = true ∧ b.warned_edge_ignored = false) := by
      intro hc; rw [h] at hc; cases hc.2
    rw [if_neg h2]; exact ⟨rfl, rfl⟩
  · rw [if_neg h1]; exact ⟨rfl, rfl⟩

lemma countN_append (n : Notice) (a b : List Notice) :
    countN n (a ++ b) = countN n a + countN n b := by
  induction a with
  | nil => simp [countN]
  | cons w ws ih => simp [countN, ih]; omega

/-- Combined count of the two notices guarded by the shared
warned_edge_ignored flag. -/
def countE (ws : List Notice) : Nat :=
  countN Notice.gcnDerivFailed ws + countN Notice.edgeAttrIgnored ws

lemma prep_fst (b : GNNBackbone) (d : BatchData) :
    (prepare_inputs b d).1 = (step_ignored (step_gcn (step_edge_v b d).1 d).1 d).1 := by
  unfold prepare_inputs
  split_ifs <;> rfl

lemma prep_warns_eq (b : GNNBackbone) (d : BatchData) :
    (prepare_inputs b d).2.1 =
      (step_edge_v b d).2 ++ (step_gcn (step_edge_v b d).1 d).2.1 ++
      (step_ignored (step_gcn (step_edge_v b d).1 d).1 d).2.1 := by
  unfold prepare_inputs
  split_ifs <;> rfl

lemma prep_core (b : GNNBackbone) (d : BatchData) : sameCore (prepare_inputs b d).1 b := by
  rw [prep_fst]
  exact sameCore_trans (step_ignored_core _ _)
    (sameCore_trans (step_gcn_core _ _) (step_edge_v_core _ _))

lemma prep_flag_v (b : GNNBackbone) (d : BatchData) :
    (prepare_inputs b d).1.warned_edge_v_ignored
      = (b.warned_edge_v_ignored || d.edge_v.isSome) := by
  rw [prep_fst, step_ignored_flag_v, step_gcn_flag_v, step_edge_v_flag_v]

lemma prep_flag_e_mono (b : GNNBackbone) (d : BatchData)
    (h : b.warned_edge_ignored = true) :
    (prepare_inputs b d).1.warned_edge_ignored = true := by
  rw [prep_fst]
  exact step_ignored_flag_e_mono _ _ (step_gcn_flag_e_mono _ _ ((step_edge_v_flag_e b d).trans h))

lemma countN_v_gcn_warns (b : GNNBackbone) (d : BatchData) :
    countN Notice.edgeVIgnored (step_gcn b d).2.1 = 0 := by
  rcases step_gcn_warns_cases b d with h | ⟨h, _⟩ <;> simp [h, countN]

lemma countN_v_ignored_warns (b : GNNBackbone) (d : BatchData) :
    countN Notice.edgeVIgnored (step_ignored b d).2.1 = 0 := by
  rcases step_ignored_warns_cases b d with h | ⟨h, _⟩ <;> simp [h, countN]

lemma countE_edge_v_warns (b : GNNBackbone) (d : BatchData) :
    countE (step_edge_v b d).2 = 0 := by
  rcases step_edge_v_warns_cases b d with h | ⟨h, _⟩ <;> simp [h, countE, countN]

lemma prep_count_v_zero (b : GNNBackbone) (d : BatchData)
    (h : b.warned_edge_v_ignored = true) :
    countN Notice.edgeVIgnored (prepare_inputs b d).2.1 = 0 := by
  rw [prep_warns_eq, countN_append, countN_append, countN_v_gcn_warns, countN_v_ignored_warns]
  rcases step_edge_v_warns_cases b d with h1 | ⟨h1, h2, h3⟩
  · simp [h1, countN]
  · rw [h] at h3; cases h3

lemma prep_count_v_le (b : GNNBackbone) (d : BatchData) :
    countN Notice.edgeVIgnored (prepare_inputs b d).2.1 ≤ 1 := by
  rw [prep_warns_eq, countN_append, countN_append, countN_v_gcn_warns, countN_v_ignored_warns]
  rcases step_edge_v_warns_cases b d with h1 | ⟨h1, h2, h3⟩ <;> simp [h1, countN]

lemma prep_count_v_flag (b : GNNBackbone) (d : BatchData)
    (h : 1 ≤ countN Notice.edgeVIgnored (prepare_inputs b d).2.1) :
    (prepare_inputs b d).1.warned_edge_v_ignored = true := by
  rw [prep_warns_eq, countN_append, countN_append, countN_v_gcn_warns,
    countN_v_ignored_warns] at h
  rcases step_edge_v_warns_cases b d with h1 | ⟨h1, h2, h3⟩
  · simp [h1, countN] at h
  · rw [prep_fst, step_ignored_flag_v, step_gcn_flag_v]
    exact h2

lemma prep_count_e_zero (b : GNNBackbone) (d : BatchData)
    (h : b.warned_edge_ignored = true) :
    countE (prepare_inputs b d).2.1 = 0 := by
  rw [prep_warns_eq]
  have hb1 : (step_edge_v b d).1.warned_edge_ignored = true := (step_edge_v_flag_e b d).trans h
  obtain ⟨hst2, hw2⟩ := step_gcn_state_of_flag (step_edge_v b d).1 d hb1
  have hb2 : (step_gcn (step_edge_v b d).1 d).1.warned_edge_ignored = true := by
    rw [hst2]; exact hb1
  obtain ⟨hst3, hw3⟩ := step_ignored_state_of_flag (step_gcn (step_edge_v b d).1 d).1 d hb2
  simp [countE, countN_append, hw2, hw3, countN, countE_edge_v_warns]
  constructor
  · rcases step_edge_v_warns_cases b d with h1 | ⟨h1, _⟩ <;> simp [h1, countN]
  · rcases step_edge_v_warns_cases b d with h1 | ⟨h1, _⟩ <;> simp [h1, countN]

lemma prep_count_e_le (b : GNNBackbone) (d : BatchData) :
    countE (prepare_inputs b d).2.1 ≤ 1 := by
  by_cases h : b.warned_edge_ignored = true
  · rw [prep_count_e_zero b d h]; omega
  rw [prep_warns_eq]
  have he1 := countE_edge_v_warns b d
  rcases step_gcn_warns_cases (step_edge_v b d).1 d with h2 | ⟨h2, h2f, h2p⟩
  · rcases step_ignored_warns_cases (step_gcn (step_edge_v b d).1 d).1 d with h3 | ⟨h3, _⟩ <;>
      simp_all [countE, countN_append, countN]
  · obtain ⟨_, hw3⟩ := step_ignored_state_of_flag (step_gcn (step_edge_v b d).1 d).1 d h2f
    simp_all [countE, countN_append, countN]

lemma prep_count_e_flag (b : GNNBackbone) (d : BatchData)
    (h : 1 ≤ countE (prepare_inputs b d).2.1) :
    (prepare_inputs b d).1.warned_edge_ignored = true := by
  rw [prep_warns_eq] at h
  have he1 := countE_edge_v_warns b d
  rw [prep_fst]
  rcases step_ignored_warns_cases (step_gcn (step_edge_v b d).1 d).1 d with h3 | ⟨h3, h3f, _⟩
  · rcases step_gcn_warns_cases (step_edge_v b d).1 d with h2 | ⟨h2, h2f, _⟩
    · exfalso; simp_all [countE, countN_append, countN]
    · exact step_ignored_flag_e_mono _ _ h2f
  · exact h3f

lemma build_layers_ok_elim {b b2 : GNNBackbone} {i : Nat} {e : Option Nat}
    (h : build_layers b i e = .ok b2) :
    ∃ ls, build_loop b.conv_type e i b.hidden_dims = .ok ls ∧
      b2 = { b with convs := ls, readout_in := some b.hidden_dims.sum,
                    edge_dim := e, built := true } := by
  unfold build_layers at h
  cases h1 : build_loop b.conv_type e i b.hidden_dims with
  | error e2 => rw [h1] at h; cases h
  | ok ls =>
    rw [h1] at h
    refine ⟨ls, rfl, ?_⟩
    cases h
    rfl

lemma iab_ok_cases {b b2 : GNNBackbone} {p : Prepared}
    (h : infer_and_build b p = .ok b2) :
    (b.built = true ∧ b2 = b) ∨
    (b.built = false ∧ ∃ e, build_layers b p.x.headI.length e = .ok b2) := by
  unfold infer_and_build at h
  by_cases hb : b.built = true
  · rw [if_pos hb] at h
    cases h
    exact Or.inl ⟨hb, rfl⟩
  · rw [if_neg hb] at h
    refine Or.inr ⟨by simpa using hb, ?_⟩
    by_cases hg : b.conv_type = "gine"
    · rw [if_pos hg] at h
      cases hA : p.edge_attr with
      | some a => rw [hA] at h; exact ⟨_, h⟩
      | none =>
        rw [hA] at h
        by_cases hz : b.gine_missing_edge_policy = "zeros"
        · rw [if_pos hz] at h; exact ⟨_, h⟩
        · rw [if_neg hz] at h; cases h
    · rw [if_neg hg] at h; exact ⟨_, h⟩

lemma iab_flags {b b2 : GNNBackbone} {p : Prepared}
    (h : infer_and_build b p = .ok b2) :
    b2.warned_edge_ignored = b.warned_edge_ignored ∧
    b2.warned_edge_v_ignored = b.warned_edge_v_ignored ∧
    b2.conv_type = b.conv_type ∧ b2.out_dim = b.out_dim ∧
    b2.residue_logits = b.residue_logits ∧ b2.hidden_dims = b.hidden_dims ∧
    b2.gine_missing_edge_policy = b.gine_missing_edge_policy ∧
    b2.gcn_edge_mode = b.gcn_edge_mode := by
  rcases iab_ok_cases h with ⟨_, rfl⟩ | ⟨_, e, hb⟩
  · exact ⟨rfl, rfl, rfl, rfl, rfl, rfl, rfl, rfl⟩
  · obtain ⟨ls, _, rfl⟩ := build_layers_ok_elim hb
    exact ⟨rfl, rfl, rfl, rfl, rfl, rfl, rfl, rfl⟩

lemma fwd_core_warns (o : Oracle) (st : GNNBackbone) (w : List Notice) (p : Prepared) :
    (forward_core o st w p).warns = w := by
  unfold forward_core
  cases h : infer_and_build st p with
  | error e => rfl
  | ok st2 =>
    cases h2 : hcat (rc_of o st2 p).1 with
    | error e => simp [h2]
    | ok hc => by_cases hr : st2.residue_logits = true <;> simp [h2, hr]

lemma fwd_warns (o : Oracle) (b : GNNBackbone) (d : BatchData) :
    (GNNBackbone.forward o b d).warns = (prepare_inputs b d).2.1 := by
  unfold GNNBackbone.forward
  cases h : (prepare_inputs b d).2.2 with
  | error e => rfl
  | ok p => exact fwd_core_warns o _ _ p

lemma fwd_core_st_cases (o : Oracle) (st : GNNBackbone) (w : List Notice) (p : Prepared) :
    (forward_core o st w p).st = st ∨ infer_and_build st p = .ok (forward_core o st w p).st := by
  unfold forward_core
  cases h : infer_and_build st p with
  | error e => exact Or.inl rfl
  | ok st2 =>
    refine Or.inr ?_
    cases h2 : hcat (rc_of o st2 p).1 with
    | error e => simp [h2]
    | ok hc => by_cases hr : st2.residue_logits = true <;> simp [h2, hr]

lemma fwd_flag_e (o : Oracle) (b : GNNBackbone) (d : BatchData) :
    (GNNBackbone.forward o b d).st.warned_edge_ignored
      = (prepare_inputs b d).1.warned_edge_ignored := by
  unfold GNNBackbone.forward
  cases h : (prepare_inputs b d).2.2 with
  | error e => rfl
  | ok p =>
    rcases fwd_core_st_cases o (prepare_inputs b d).1 (prepare_inputs b d).2.1 p with h2 | h2
    · rw [h2]
    · exact (iab_flags h2).1

lemma fwd_flag_v (o : Oracle) (b : GNNBackbone) (d : BatchData) :
    (GNNBackbone.forward o b d).st.warned_edge_v_ignored
      = (prepare_inputs b d).1.warned_edge_v_ignored := by
  unfold GNNBackbone.forward
  cases h : (prepare_inputs b d).2.2 with
  | error e => rfl
  | ok p =>
    rcases fwd_core_st_cases o (prepare_inputs b d).1 (prepare_inputs b d).2.1 p with h2 | h2
    · rw [h2]
    · exact (iab_flags h2).2.1

lemma run_seq_cons (o : Oracle) (b : GNNBackbone) (d : BatchData) (ds : List BatchData) :
    run_seq o b (d :: ds)
      = ((run_seq o (GNNBackbone.forward o b d).st ds).1,
         (GNNBackbone.forward o b d).warns ++ (run_seq o (GNNBackbone.forward o b d).st ds).2) := by
  rfl

lemma seq_count_v_zero (o : Oracle) :
    ∀ (ds : List BatchData) (b : GNNBackbone), b.warned_edge_v_ignored = true →
      countN Notice.edgeVIgnored (run_seq o b ds).2 = 0 := by
  intro ds
  induction ds with
  | nil => intro b _; rfl
  | cons d ds ih =>
    intro b h
    rw [run_seq_cons, countN_append, fwd_warns, prep_count_v_zero b d h]
    have hst : (GNNBackbone.forward o b d).st.warned_edge_v_ignored = true := by
      rw [fwd_flag_v, prep_flag_v, h]; rfl
    rw [ih _ hst]

lemma seq_count_v_le (o : Oracle) :
    ∀ (ds : List BatchData) (b : GNNBackbone),
      countN Notice.edgeVIgnored (run_seq o b ds).2 ≤ 1 := by
  intro ds
  induction ds with
  | nil => intro b; simp [run_seq, countN]
  | cons d ds ih =>
    intro b
    rw [run_seq_cons, countN_append, fwd_warns]
    by_cases hc : 1 ≤ countN Notice.edgeVIgnored (prepare_inputs b d).2.1
    · have hfl := prep_count_v_flag b d hc
      have hst : (GNNBackbone.forward o b d).st.warned_edge_v_ignored = true := by
        rw [fwd_flag_v]; exact hfl
      rw [seq_count_v_zero o ds _ hst]
      have := prep_count_v_le b d
      omega
    · have h0 : countN Notice.edgeVIgnored (prepare_inputs b d).2.1 = 0 := by omega
      rw [h0]
      simpa using ih (GNNBackbone.forward o b d).st

lemma seq_count_e_zero (o : Oracle) :
    ∀ (ds : List BatchData) (b : GNNBackbone), b.warned_edge_ignored = true →
      countE (run_seq o b ds).2 = 0 := by
  intro ds
  induction ds with
  | nil => intro b _; rfl
  | cons d ds ih =>
    intro b h
    have hsplit : countE ((GNNBackbone.forward o b d).warns
        ++ (run_seq o (GNNBackbone.forward o b d).st ds).2)
        = countE (GNNBackbone.forward o b d).warns
          + countE (run_seq o (GNNBackbone.forward o b d).st ds).2 := by
      simp [countE, countN_append]; omega
    rw [run_seq_cons]
    have hst : (GNNBackbone.forward o b d).st.warned_edge_ignored = true := by
      rw [fwd_flag_e]; exact prep_flag_e_mono b d h
    rw [hsplit, ih _ hst, fwd_warns, prep_count_e_zero b d h]

lemma seq_count_e_le (o : Oracle) :
    ∀ (ds : List BatchData) (b : GNNBackbone), countE (run_seq o b ds).2 ≤ 1 := by
  intro ds
  induction ds with
  | nil => intro b; simp [run_seq, countE, countN]
  | cons d ds ih =>
    intro b
    have hsplit : countE ((GNNBackbone.forward o b d).warns
        ++ (run_seq o (GNNBackbone.forward o b d).st ds).2)
        = countE (GNNBackbone.forward o b d).warns
          + countE (run_seq o (GNNBackbone.forward o b d).st ds).2 := by
      simp [countE, countN_append]; omega
    rw [run_seq_cons, hsplit, fwd_warns]
    by_cases hc : 1 ≤ countE (prepare_inputs b d).2.1
    · have hfl := prep_count_e_flag b d hc
      have hst : (GNNBackbone.forward o b d).st.warned_edge_ignored = true := by
        rw [fwd_flag_e]; exact hfl
      rw [seq_count_e_zero o ds _ hst]
      have := prep_count_e_le b d
      omega
    · have h0 : countE (prepare_inputs b d).2.1 = 0 := by omega
      rw [h0]
      simpa using ih (GNNBackbone.forward o b d).st

lemma make_conv_ok_dims {ct : String} {i od : Nat} {ed : Option Nat} {c : ConvLayer}
    (h : make_conv ct i od ed = .ok c) : c.in_dim = i ∧ c.out_dim = od := by
  unfold make_conv at h
  split_ifs at h
  all_goals (try (cases h; exact ⟨rfl, rfl⟩))
  cases ed with
  | none => simp at h
  | some k => simp at h; rw [← h]; exact ⟨rfl, rfl⟩

lemma build_loop_ok_len {ct : String} {ed : Option Nat} :
    ∀ (hs : List Nat) (prev : Nat) (cs : List ConvLayer),
      build_loop ct ed prev hs = .ok cs → cs.length = hs.length := by
  intro hs
  induction hs with
  | nil => intro prev cs h; cases h; rfl
  | cons d rest ih =>
    intro prev cs h
    unfold build_loop at h
    cases h1 : make_conv ct prev d (if ct = "gine" then ed else none) with
    | error e => rw [h1] at h; cases h
    | ok c =>
      rw [h1] at h
      cases h2 : build_loop ct ed d rest with
      | error e => rw [h2] at h; cases h
      | ok cs2 =>
        rw [h2] at h
        cases h
        simp [ih d cs2 h2]

lemma build_loop_ok_chain {ct : String} {ed : Option Nat} :
    ∀ (hs : List Nat) (prev : Nat) (cs : List ConvLayer),
      build_loop ct ed prev hs = .ok cs →
      cs.map (fun c => (c.in_dim, c.out_dim)) = (prev :: hs).zip hs := by
  intro hs
  induction hs with
  | nil => intro prev cs h; cases h; rfl
  | cons d rest ih =>
    intro prev cs h
    unfold build_loop at h
    cases h1 : make_conv ct prev d (if ct = "gine" then ed else none) with
    | error e => rw [h1] at h; cases h
    | ok c =>
      rw [h1] at h
      cases h2 : build_loop ct ed d rest with
      | error e => rw [h2] at h; cases h
      | ok cs2 =>
        rw [h2] at h
        cases h
        obtain ⟨hi, ho⟩ := make_conv_ok_dims h1
        simp [hi, ho, ih d cs2 h2, List.zip]

lemma build_loop_cons_ok {ct : String} {ed : Option Nat} {prev d : Nat} {rest : List Nat}
    {c : ConvLayer} {cs2 : List ConvLayer}
    (h1 : make_conv ct prev d (if ct = "gine" then ed else none) = .ok c)
    (h2 : build_loop ct ed d rest = .ok cs2) :
    build_loop ct ed prev (d :: rest) = .ok (c :: cs2) := by
  unfold build_loop
  rw [h1, h2]
  rfl

lemma build_loop_ignored {ct : String}
    (hct : ct = "gat" ∨ ct = "gatv2" ∨ ct = "sage" ∨ ct = "gin") :
    ∀ (hs : List Nat) (prev : Nat), ∃ cs,
      build_loop ct none prev hs = .ok cs ∧
      ∀ c ∈ cs, c.kind ≠ ConvKind.gcn ∧ c.kind ≠ ConvKind.gine := by
  intro hs
  induction hs with
  | nil => intro prev; exact ⟨[], rfl, by simp⟩
  | cons d rest ih =>
    intro prev
    obtain ⟨cs2, hcs2, hk2⟩ := ih d
    rcases hct with h | h | h | h <;> subst h
    · refine ⟨⟨ConvKind.gat, prev, d, none⟩ :: cs2, ?_, ?_⟩
      · exact build_loop_cons_ok (by simp +decide [make_conv]) hcs2
      · intro c hc
        rcases List.mem_cons.mp hc with rfl | hc2
        · exact ⟨by simp, by simp⟩
        · exact hk2 c hc2
    · refine ⟨⟨ConvKind.gatv2, prev, d, none⟩ :: cs2, ?_, ?_⟩
      · exact build_loop_cons_ok (by simp +decide [make_conv]) hcs2
      · intro c hc
        rcases List.mem_cons.mp hc with rfl | hc2
        · exact ⟨by simp, by simp⟩
        · exact hk2 c hc2
    · refine ⟨⟨ConvKind.sage, prev, d, none⟩ :: cs2, ?_, ?_⟩
      · exact build_loop_cons_ok (by simp +decide [make_conv]) hcs2
      · intro c hc
        rcases List.mem_cons.mp hc with rfl | hc2
        · exact ⟨by simp, by simp⟩
        · exact hk2 c hc2
    · refine ⟨⟨ConvKind.gin, prev, d, none⟩ :: cs2, ?_, ?_⟩
      · exact build_loop_cons_ok (by simp +decide [make_conv]) hcs2
      · intro c hc
        rcases List.mem_cons.mp hc with rfl | hc2
        · exact ⟨by simp, by simp⟩
        · exact hk2 c hc2

lemma build_loop_gine :
    ∀ (hs : List Nat) (prev k : Nat), ∃ cs,
      build_loop "gine" (some k) prev hs = .ok cs ∧
      ∀ c ∈ cs, c.kind = ConvKind.gine := by
  intro hs
  induction hs with
  | nil => intro prev k; exact ⟨[], rfl, by simp⟩
  | cons d rest ih =>
    intro prev k
    obtain ⟨cs2, hcs2, hk2⟩ := ih d k
    refine ⟨⟨ConvKind.gine, prev, d, some k⟩ :: cs2, ?_, ?_⟩
    · exact build_loop_cons_ok (by simp +decide [make_conv]) hcs2
    · intro c hc
      rcases List.mem_cons.mp hc with rfl | hc2
      · rfl
      · exact hk2 c hc2

lemma build_loop_unsupported {ct : String} (h : ct ∉ supported_conv_types) {ed : Option Nat}
    (prev d : Nat) (hs : List Nat) :
    ∃ e, build_loop ct ed prev (d :: hs) = .error e := by
  simp [supported_conv_types] at h
  obtain ⟨h1, h2, h3, h4, h5, h6⟩ := h
  refine ⟨"Unsupported conv_type: " ++ ct, ?_⟩
  simp [build_loop, make_conv, h1, h2, h3, h4, h5, h6]
  rfl

lemma run_convs_fst_len (o : Oracle) (ei : List (Nat × Nat)) (ew : Option (List ℚ))
    (ea : Option Tensor) :
    ∀ (cs : List ConvLayer) (h : List (List ℚ)),
      (run_convs o ei ew ea h cs).1.length = cs.length := by
  intro cs
  induction cs with
  | nil => intro h; rfl
  | cons c rest ih =>
    intro h
    simp [run_convs, ih]

lemma run_convs_plain (o : Oracle) (ei : List (Nat × Nat)) (ew : Option (List ℚ))
    (ea : Option Tensor) :
    ∀ (cs : List ConvLayer) (h : List (List ℚ)),
      (∀ c ∈ cs, c.kind ≠ ConvKind.gcn ∧ c.kind ≠ ConvKind.gine) →
      ∀ inp ∈ (run_convs o ei ew ea h cs).2, inp.isPlain = true := by
  intro cs
  induction cs with
  | nil => intro h _ inp hm; cases hm
  | cons c rest ih =>
    intro h hk inp hm
    obtain ⟨hk1, hk2⟩ := hk c (by simp)
    have hrest : ∀ c2 ∈ rest, c2.kind ≠ ConvKind.gcn ∧ c2.kind ≠ ConvKind.gine := by
      intro c2 hc2; exact hk c2 (by simp [hc2])
    cases hck : c.kind with
    | gcn => exact absurd hck hk1
    | gine => exact absurd hck hk2
    | gat =>
      simp [run_convs, hck] at hm
      rcases hm with h1 | h1
      · subst h1; rfl
      · exact ih _ hrest inp h1
    | gatv2 =>
      simp [run_convs, hck] at hm
      rcases hm with h1 | h1
      · subst h1; rfl
      · exact ih _ hrest inp h1
    | sage =>
      simp [run_convs, hck] at hm
      rcases hm with h1 | h1
      · subst h1; rfl
      · exact ih _ hrest inp h1
    | gin =>
      simp [run_convs, hck] at hm
      rcases hm with h1 | h1
      · subst h1; rfl
      · exact ih _ hrest inp h1

lemma run_convs_indep (o : Oracle) (ei : List (Nat × Nat)) (ew ew2 : Option (List ℚ))
    (ea ea2 : Option Tensor) :
    ∀ (cs : List ConvLayer) (h : List (List ℚ)),
      (∀ c ∈ cs, c.kind ≠ ConvKind.gcn ∧ c.kind ≠ ConvKind.gine) →
      run_convs o ei ew ea h cs = run_convs o ei ew2 ea2 h cs := by
  intro cs
  induction cs with
  | nil => intro h _; rfl
  | cons c rest ih =>
    intro h hk
    obtain ⟨hk1, hk2⟩ := hk c (by simp)
    have hrest : ∀ c2 ∈ rest, c2.kind ≠ ConvKind.gcn ∧ c2.kind ≠ ConvKind.gine := by
      intro c2 hc2; exact hk c2 (by simp [hc2])
    cases hck : c.kind with
    | gcn => exact absurd hck hk1
    | gine => exact absurd hck hk2
    | gat => simp [run_convs, hck, ih _ hrest]
    | gatv2 => simp [run_convs, hck, ih _ hrest]
    | sage => simp [run_convs, hck, ih _ hrest]
    | gin => simp [run_convs, hck, ih _ hrest]

lemma run_convs_attr (o : Oracle) (ei : List (Nat × Nat)) (ew : Option (List ℚ))
    (ea : Option Tensor) :
    ∀ (cs : List ConvLayer) (h : List (List ℚ)),
      (∀ c ∈ cs, c.kind = ConvKind.gine) →
      ∀ inp ∈ (run_convs o ei ew ea h cs).2, ∃ hx, inp = ConvInput.withAttr hx ei ea := by
  intro cs
  induction cs with
  | nil => intro h _ inp hm; cases hm
  | cons c rest ih =>
    intro h hk inp hm
    have hk1 := hk c (by simp)
    have hrest : ∀ c2 ∈ rest, c2.kind = ConvKind.gine := by
      intro c2 hc2; exact hk c2 (by simp [hc2])
    simp [run_convs, hk1] at hm
    rcases hm with h1 | h1
    · exact ⟨h, h1⟩
    · exact ih _ hrest inp h1

lemma hcat_cons_ok (m : List (List ℚ)) (ms : List (List (List ℚ))) :
    ∃ g, hcat (m :: ms) = .ok g := ⟨_, rfl⟩

lemma pool_len (h : List (List ℚ)) (bv : List Nat) :
    (global_mean_pool h bv).length = bv.foldl max 0 + 1 := by
  simp [global_mean_pool]

lemma foldl_max_ge_init : ∀ (l : List Nat) (a : Nat), a ≤ l.foldl max a := by
  intro l
  induction l with
  | nil => intro a; exact Nat.le_refl a
  | cons x xs ih =>
    intro a
    exact le_trans (Nat.le_max_left a x) (ih (max a x))

lemma foldl_max_ge_mem : ∀ (l : List Nat) (a x : Nat), x ∈ l → x ≤ l.foldl max a := by
  intro l
  induction l with
  | nil => intro a x hx; cases hx
  | cons y ys ih =>
    intro a x hx
    rcases List.mem_cons.mp hx with rfl | hx2
    · exact le_trans (Nat.le_max_right a x) (foldl_max_ge_init ys (max a x))
    · exact ih (max a y) x hx2

lemma foldl_max_le : ∀ (l : List Nat) (a c : Nat), (∀ x ∈ l, x ≤ c) → a ≤ c →
    l.foldl max a ≤ c := by
  intro l
  induction l with
  | nil => intro a c _ ha; exact ha
  | cons y ys ih =>
    intro a c hl ha
    exact ih (max a y) c (fun x hx => hl x (by simp [hx]))
      (Nat.max_le.mpr ⟨ha, hl y (by simp)⟩)

lemma qmin_le_left (a b : ℚ) : qmin a b ≤ a := by
  unfold qmin; split_ifs with h
  · exact le_refl a
  · exact le_of_not_le h

lemma qmin_le_right (a b : ℚ) : qmin a b ≤ b := by
  unfold qmin; split_ifs with h
  · exact h
  · exact le_refl b

lemma le_qmax_left (a b : ℚ) : a ≤ qmax a b := by
  unfold qmax; split_ifs with h
  · exact h
  · exact le_refl a

lemma le_qmax_right (a b : ℚ) : b ≤ qmax a b := by
  unfold qmax; split_ifs with h
  · exact le_refl b
  · exact le_of_not_le h

lemma qmax_le (a b c : ℚ) (h1 : a ≤ c) (h2 : b ≤ c) : qmax a b ≤ c := by
  unfold qmax; split_ifs <;> assumption

lemma qfoldl_min_le_init : ∀ (l : List ℚ) (a : ℚ), l.foldl qmin a ≤ a := by
  intro l
  induction l with
  | nil => intro a; exact le_refl a
  | cons x xs ih =>
    intro a
    exact le_trans (ih (qmin a x)) (qmin_le_left a x)

lemma qfoldl_min_le_mem : ∀ (l : List ℚ) (a x : ℚ), x ∈ l → l.foldl qmin a ≤ x := by
  intro l
  induction l with
  | nil => intro a x hx; cases hx
  | cons y ys ih =>
    intro a x hx
    rcases List.mem_cons.mp hx with rfl | hx2
    · exact le_trans (qfoldl_min_le_init ys (qmin a x)) (qmin_le_right a x)
    · exact ih (qmin a y) x hx2

lemma qfoldl_max_ge_init : ∀ (l : List ℚ) (a : ℚ), a ≤ l.foldl qmax a := by
  intro l
  induction l with
  | nil => intro a; exact le_refl a
  | cons x xs ih =>
    intro a
    exact le_trans (le_qmax_left a x) (ih (qmax a x))

lemma qfoldl_max_ge_mem : ∀ (l : List ℚ) (a x : ℚ), x ∈ l → x ≤ l.foldl qmax a := by
  intro l
  induction l with
  | nil => intro a x hx; cases hx
  | cons y ys ih =>
    intro a x hx
    rcases List.mem_cons.mp hx with rfl | hx2
    · exact le_trans (le_qmax_right a x) (qfoldl_max_ge_init ys (qmax a x))
    · exact ih (qmax a y) x hx2

lemma prep_state_core (b : GNNBackbone) (d : BatchData) : sameCore (prep_state b d) b := by
  unfold prep_state
  exact sameCore_trans (step_ignored_core _ _)
    (sameCore_trans (step_gcn_core _ _) (step_edge_v_core _ _))

lemma step_gcn_after_v_conv (b : GNNBackbone) (d : BatchData) :
    (step_gcn (step_edge_v b d).1 d).1.conv_type = b.conv_type :=
  (step_gcn_core _ _).1.trans (step_edge_v_core b d).1

lemma prep_ew_not_gcn (b : GNNBackbone) (d : BatchData) (h : b.conv_type ≠ "gcn") :
    prep_ew b d = d.edge_weight := by
  have hcond : ¬((step_edge_v b d).1.conv_type = "gcn" ∧ d.edge_weight = none) := by
    intro hc
    have h1 := (step_edge_v_core b d).1
    rw [h1] at hc
    exact h hc.1
  unfold prep_ew step_gcn
  rw [if_neg hcond]

lemma prep_ea_in4 (b : GNNBackbone) (d : BatchData)
    (h : b.conv_type = "gat" ∨ b.conv_type = "gatv2" ∨ b.conv_type = "sage" ∨
      b.conv_type = "gin") :
    prep_ea b d = none := by
  have hcv := step_gcn_after_v_conv b d
  have hcond : (step_gcn (step_edge_v b d).1 d).1.conv_type = "gat" ∨
      (step_gcn (step_edge_v b d).1 d).1.conv_type = "gatv2" ∨
      (step_gcn (step_edge_v b d).1 d).1.conv_type = "sage" ∨
      (step_gcn (step_edge_v b d).1 d).1.conv_type = "gin" := by
    rw [hcv]; exact h
  unfold prep_ea step_ignored
  rw [if_pos hcond]
  split_ifs <;> rfl

lemma prep_ea_notin4 (b : GNNBackbone) (d : BatchData)
    (h : ¬(b.conv_type = "gat" ∨ b.conv_type = "gatv2" ∨ b.conv_type = "sage" ∨
      b.conv_type = "gin")) :
    prep_ea b d = d.edge_attr := by
  have hcv := step_gcn_after_v_conv b d
  have hcond : ¬((step_gcn (step_edge_v b d).1 d).1.conv_type = "gat" ∨
      (step_gcn (step_edge_v b d).1 d).1.conv_type = "gatv2" ∨
      (step_gcn (step_edge_v b d).1 d).1.conv_type = "sage" ∨
      (step_gcn (step_edge_v b d).1 d).1.conv_type = "gin") := by
    rw [hcv]; exact h
  unfold prep_ea step_ignored
  rw [if_neg hcond]

lemma prep_res_not_gine (b : GNNBackbone) (d : BatchData) (h : b.conv_type ≠ "gine") :
    (prepare_inputs b d).2.2 = .ok ⟨d.x, d.edge_index, prep_ea b d, prep_ew b d,
      d.batch.getD (List.replicate d.x.length 0)⟩ := by
  have hcond : ¬((prep_state b d).conv_type = "gine" ∧ prep_ea b d = none ∧
      (prep_state b d).gine_missing_edge_policy ≠ "zeros") := by
    intro hc
    have h1 := (prep_state_core b d).1
    rw [h1] at hc
    exact h hc.1
  unfold prepare_inputs
  rw [if_neg hcond]

lemma prep_res_gine_some (b : GNNBackbone) (d : BatchData) (a : Tensor)
    (hct : b.conv_type = "gine") (ha : d.edge_attr = some a) :
    (prepare_inputs b d).2.2 = .ok ⟨d.x, d.edge_index, some a, d.edge_weight,
      d.batch.getD (List.replicate d.x.length 0)⟩ := by
  have hnot4 : ¬(b.conv_type = "gat" ∨ b.conv_type = "gatv2" ∨ b.conv_type = "sage" ∨
      b.conv_type = "gin") := by
    rw [hct]; decide
  have hea : prep_ea b d = some a := (prep_ea_notin4 b d hnot4).trans ha
  have hew : prep_ew b d = d.edge_weight := prep_ew_not_gcn b d (by rw [hct]; decide)
  have hcond : ¬((prep_state b d).conv_type = "gine" ∧ prep_ea b d = none ∧
      (prep_state b d).gine_missing_edge_policy ≠ "zeros") := by
    intro hc
    rw [hea] at hc
    cases hc.2.1
  unfold prepare_inputs
  rw [if_neg hcond, hea, hew]

lemma prep_res_gine_missing (b : GNNBackbone) (d : BatchData)
    (hct : b.conv_type = "gine") (hz : b.gine_missing_edge_policy ≠ "zeros")
    (ha : d.edge_attr = none) :
    (prepare_inputs b d).2.2
      = .error "GINE needs edge_attr, or set gine_missing_edge_policy to zeros" := by
  have hnot4 : ¬(b.conv_type = "gat" ∨ b.conv_type = "gatv2" ∨ b.conv_type = "sage" ∨
      b.conv_type = "gin") := by
    rw [hct]; decide
  have hea : prep_ea b d = none := (prep_ea_notin4 b d hnot4).trans ha
  have hcore := prep_state_core b d
  have hcond : (prep_state b d).conv_type = "gine" ∧ prep_ea b d = none ∧
      (prep_state b d).gine_missing_edge_policy ≠ "zeros" := by
    refine ⟨hcore.1.trans hct, hea, ?_⟩
    rw [hcore.2.2.2.2.2.1]
    exact hz
  unfold prepare_inputs
  rw [if_pos hcond]

lemma fwd_of_prep_err (o : Oracle) (b : GNNBackbone) (d : BatchData) (e : String)
    (h : (prepare_inputs b d).2.2 = .error e) :
    GNNBackbone.forward o b d
      = ⟨.error e, (prepare_inputs b d).1, [], (prepare_inputs b d).2.1⟩ := by
  unfold GNNBackbone.forward
  rw [h]

lemma fwd_of_prep_ok (o : Oracle) (b : GNNBackbone) (d : BatchData) (p : Prepared)
    (h : (prepare_inputs b d).2.2 = .ok p) :
    GNNBackbone.forward o b d
      = forward_core o (prepare_inputs b d).1 (prepare_inputs b d).2.1 p := by
  unfold GNNBackbone.forward
  rw [h]

lemma iab_built (st : GNNBackbone) (p : Prepared) (hb : st.built = true) :
    infer_and_build st p = .ok st := by
  unfold infer_and_build
  rw [if_pos hb]

lemma iab_nongine (st : GNNBackbone) (p : Prepared) (hb : st.built = false)
    (hg : st.conv_type ≠ "gine") :
    infer_and_build st p = build_layers st p.x.headI.length none := by
  unfold infer_and_build
  rw [if_neg (by simp [hb]), if_neg hg]

lemma iab_gine_some (st : GNNBackbone) (p : Prepared) (a : Tensor) (hb : st.built = false)
    (hg : st.conv_type = "gine") (ha : p.edge_attr = some a) :
    infer_and_build st p
      = build_layers st p.x.headI.length (some (if a.dim = 2 then a.lastSize else 1)) := by
  unfold infer_and_build
  rw [if_neg (by simp [hb]), if_pos hg, ha]

lemma fwd_core_st_of_iab (o : Oracle) (st st2 : GNNBackbone) (w : List Notice) (p : Prepared)
    (h : infer_and_build st p = .ok st2) :
    (forward_core o st w p).st = st2 := by
  unfold forward_core
  rw [h]
  cases h2 : hcat (rc_of o st2 p).1 with
  | error e => simp [h2]
  | ok hc => by_cases hr : st2.residue_logits = true <;> simp [h2, hr]

lemma fwd_core_of_iab_err (o : Oracle) (st : GNNBackbone) (w : List Notice) (p : Prepared)
    (e : String) (h : infer_and_build st p = .error e) :
    forward_core o st w p = ⟨.error e, st, [], w⟩ := by
  unfold forward_core
  rw [h]

lemma build_layers_err {b : GNNBackbone} {i : Nat} {ed : Option Nat} {e : String}
    (h : build_loop b.conv_type ed i b.hidden_dims = .error e) :
    build_layers b i ed = .error e := by
  unfold build_layers
  rw [h]
  rfl

/-- Claim C1 counterexample: an unrecognized operator-kind string is
accepted by the constructor, so the claimed construction-time failure
does not happen. -/
theorem claim1_counterexample :
    "bogus" ∉ supported_conv_types ∧
    (GNNBackbone.init "bogus" (some [3]) 1 false "auto" "error" none).isOk = true := by
  constructor
  · decide
  · rfl

/-- Claim C1 (amended): an unrecognized operator kind is not rejected at
construction; instead, every first forward call on such an instance
(with a nonempty hidden-width list) raises during the lazy layer build,
leaving the instance unbuilt. -/
theorem claim1_unrecognized_kind_fails_at_first_forward
    (o : Oracle) (b : GNNBackbone) (d : BatchData)
    (hct : b.conv_type ∉ supported_conv_types) (hb : b.built = false)
    (hh : b.hidden_dims ≠ []) :
    (GNNBackbone.forward o b d).out.isOk = false ∧
    (GNNBackbone.forward o b d).st.built = false := by
  have hct6 := hct
  simp [supported_conv_types] at hct6
  obtain ⟨h1, h2, h3, h4, h5, h6⟩ := hct6
  have hcore := prep_core b d
  have hp := prep_res_not_gine b d h6
  rw [fwd_of_prep_ok o b d _ hp]
  have hst1ct : (prepare_inputs b d).1.conv_type = b.conv_type := hcore.1
  have hst1b : (prepare_inputs b d).1.built = false := hcore.2.2.2.2.2.2.1.trans hb
  have hiab := iab_nongine (prepare_inputs b d).1
    (⟨d.x, d.edge_index, prep_ea b d, prep_ew b d,
      d.batch.getD (List.replicate d.x.length 0)⟩ : Prepared)
    hst1b (by rw [hst1ct]; exact h6)
  obtain ⟨d0, hs0, hhd⟩ : ∃ d0 hs0, (prepare_inputs b d).1.hidden_dims = d0 :: hs0 := by
    rw [hcore.2.1]
    cases hc : b.hidden_dims with
    | nil => exact absurd hc hh
    | cons d0 hs0 => exact ⟨d0, hs0, rfl⟩
  obtain ⟨e, hbe⟩ : ∃ e, build_loop (prepare_inputs b d).1.conv_type none
      ((⟨d.x, d.edge_index, prep_ea b d, prep_ew b d,
        d.batch.getD (List.replicate d.x.length 0)⟩ : Prepared).x.headI.length)
      (prepare_inputs b d).1.hidden_dims = .error e := by
    rw [hhd]
    exact build_loop_unsupported (by rw [hst1ct]; exact hct) _ _ _
  have hbl : build_layers (prepare_inputs b d).1
      ((⟨d.x, d.edge_index, prep_ea b d, prep_ew b d,
        d.batch.getD (List.replicate d.x.length 0)⟩ : Prepared).x.headI.length) none
      = .error e := build_layers_err hbe
  rw [fwd_core_of_iab_err o _ _ _ e (hiab.trans hbl)]
  exact ⟨rfl, hst1b⟩

/-- Claim C1 witness: the concrete bogus-kind backbone fails on its
first forward call and stays unbuilt. -/
theorem claim1_witness :
    (GNNBackbone.forward oracle0 bBogusFresh dPlain).out.isOk = false ∧
    (GNNBackbone.forward oracle0 bBogusFresh dPlain).st.built = false :=
  claim1_unrecognized_kind_fails_at_first_forward oracle0 bBogusFresh dPlain
    (by decide) rfl (by decide)

/-- Claim C4 counterexample: the constructor accepts an empty
hidden-width list, so construction does not fail in the empty case. -/
theorem claim4_counterexample :
    (GNNBackbone.init "gcn" (some ([] : List Nat)) 1 false "auto" "error" none).isOk
      = true := by
  rfl

/-- Claim C4 (amended): construction fails exactly when the hidden-width
list is absent (no hidden_dims argument and no deprecated dims alias); a
present list, including the empty list, is always accepted. -/
theorem claim4_construction_fails_only_when_missing
    (ct : String) (od : Nat) (rl : Bool) (gem gmp : String) :
    (GNNBackbone.init ct none od rl gem gmp none).isOk = false ∧
    (∀ hd : List Nat, (GNNBackbone.init ct (some hd) od rl gem gmp none).isOk = true) ∧
    (∀ dl : List Nat, (GNNBackbone.init ct none od rl gem gmp (some dl)).isOk = true) := by
  refine ⟨rfl, fun hd => rfl, fun dl => rfl⟩

/-- Claim C5 counterexample: on a tensor of shape E x 1 the mean_inv
mode is bypassed entirely (the squeeze branch returns the raw value), so
the row value 2 is returned instead of the claimed 1/(mean+1e-8). -/
theorem claim5_counterexample :
    edge_weight_from_attr (Tensor.t2 1 [[2]]) "mean_inv" = .ok [2] ∧
    (2 : ℚ) ≠ 1 / (2 + eps) := by
  constructor
  · decide
  · norm_num [eps]

/-- Claim C5 (amended): mean_inv returns 1/(mean(r)+1e-8) per row only
for tensors of shape E x D with D at least 2, and the returned value is
additionally clamped at zero. -/
theorem claim5_mean_inv_on_wide_rows (D : Nat) (rows : List (List ℚ)) (hD : 2 ≤ D) :
    edge_weight_from_attr (Tensor.t2 D rows) "mean_inv"
      = .ok (rows.map (fun r => qmax 0 (1 / (r.sum / (r.length : ℚ) + 1 / 100000000)))) := by
  unfold edge_weight_from_attr
  dsimp only
  rw [if_neg (by omega), if_neg (by decide), if_pos rfl]
  simp [clamp0, listMean, eps, List.map_map]

/-- Claim C5 witness: the amended statement evaluated on one concrete
two-column row. -/
theorem claim5_witness :
    edge_weight_from_attr (Tensor.t2 2 [[1, 3]]) "mean_inv"
      = .ok ([[(1 : ℚ), 3]].map
          (fun r => qmax 0 (1 / (r.sum / (r.length : ℚ) + 1 / 100000000)))) :=
  claim5_mean_inv_on_wide_rows 2 [[1, 3]] (by omega)

/-- Claim C10: in auto mode on a nonempty tensor of shape E x D with D
at least 2, every returned weight lies in the closed interval from 0 to
1: the non-degenerate branch returns one minus a min-max-normalized
mean, and the degenerate branch returns exactly 1. -/
theorem claim10_auto_weights_in_unit_interval (D : Nat) (rows : List (List ℚ))
    (hD : 2 ≤ D) (hne : rows ≠ []) :
    ∃ ws, edge_weight_from_attr (Tensor.t2 D rows) "auto" = .ok ws ∧
      ∀ w ∈ ws, 0 ≤ w ∧ w ≤ 1 := by
  unfold edge_weight_from_attr
  dsimp only
  rw [if_neg (by omega), if_neg (by decide), if_neg (by decide)]
  cases hr : rows with
  | nil => exact absurd hr hne
  | cons r0 rt =>
    simp only [List.map_cons]
    by_cases hrange : eps < (rt.map listMean).foldl qmax (listMean r0)
        - (rt.map listMean).foldl qmin (listMean r0)
    · rw [if_pos hrange]
      refine ⟨_, rfl, ?_⟩
      intro w hw
      simp only [clamp0] at hw
      obtain ⟨u, hu, rfl⟩ := List.mem_map.mp hw
      have hex : ∃ v, v ∈ listMean r0 :: List.map listMean rt ∧
          u = 1 - (v - (rt.map listMean).foldl qmin (listMean r0)) /
            ((rt.map listMean).foldl qmax (listMean r0)
              - (rt.map listMean).foldl qmin (listMean r0) + eps) := by
        rcases List.mem_cons.mp hu with rfl | hu2
        · exact ⟨listMean r0, by simp, rfl⟩
        · obtain ⟨v, hv, rfl⟩ := List.mem_map.mp hu2
          exact ⟨v, by simp [hv], rfl⟩
      obtain ⟨v, hv, rfl⟩ := hex
      have hmin : (rt.map listMean).foldl qmin (listMean r0) ≤ v := by
        rcases List.mem_cons.mp hv with rfl | hv2
        · exact qfoldl_min_le_init _ _
        · exact qfoldl_min_le_mem _ _ _ hv2
      have heps : (0 : ℚ) < eps := by norm_num [eps]
      have hden : 0 < (rt.map listMean).foldl qmax (listMean r0)
          - (rt.map listMean).foldl qmin (listMean r0) + eps := by linarith
      refine ⟨le_qmax_left 0 _, qmax_le 0 _ 1 (by norm_num) ?_⟩
      have hq : 0 ≤ (v - (rt.map listMean).foldl qmin (listMean r0)) /
          ((rt.map listMean).foldl qmax (listMean r0)
            - (rt.map listMean).foldl qmin (listMean r0) + eps) :=
        div_nonneg (by linarith) (le_of_lt hden)
      linarith
    · rw [if_neg hrange]
      refine ⟨_, rfl, ?_⟩
      intro w hw
      simp only [clamp0] at hw
      obtain ⟨u, hu, rfl⟩ := List.mem_map.mp hw
      have hu1 : u = 1 := by
        rcases List.mem_cons.mp hu with rfl | hu2
        · rfl
        · obtain ⟨v, hv, rfl⟩ := List.mem_map.mp hu2
          rfl
      subst hu1
      exact ⟨le_qmax_left 0 1, qmax_le 0 1 1 (by norm_num) (le_refl 1)⟩

/-- Claim C10 witness: the bound evaluated on a concrete two-row,
two-column tensor. -/
theorem claim10_witness :
    ∃ ws, edge_weight_from_attr (Tensor.t2 2 [[0, 1], [2, 3]]) "auto" = .ok ws ∧
      ∀ w ∈ ws, 0 ≤ w ∧ w ≤ 1 :=
  claim10_auto_weights_in_unit_interval 2 [[0, 1], [2, 3]] (by omega) (by simp)

/-- Claim C9: each of the two one-time notices (ignored edge features,
ignored edge_v field) is emitted at most once per instance over an
arbitrary call sequence, and the guarding flags are never reset by a
call. -/
theorem claim9_notices_at_most_once (o : Oracle) (b : GNNBackbone) (ds : List BatchData)
    (d : BatchData) :
    countN Notice.edgeVIgnored (run_seq o b ds).2 ≤ 1 ∧
    countN Notice.edgeAttrIgnored (run_seq o b ds).2 ≤ 1 ∧
    (b.warned_edge_v_ignored = true →
      (GNNBackbone.forward o b d).st.warned_edge_v_ignored = true) ∧
    (b.warned_edge_ignored = true →
      (GNNBackbone.forward o b d).st.warned_edge_ignored = true) := by
  refine ⟨seq_count_v_le o ds b, ?_, ?_, ?_⟩
  · have h := seq_count_e_le o ds b
    unfold countE at h
    omega
  · intro h
    rw [fwd_flag_v, prep_flag_v, h]
    rfl
  · intro h
    rw [fwd_flag_e]
    exact prep_flag_e_mono b d h

/-- Claim C9 witness: the at-most-once bound and the flag persistence on
concrete instances and batches. -/
theorem claim9_witness :
    countN Notice.edgeVIgnored (run_seq oracle0 bGcnFresh [dEdgeV, dEdgeV]).2 ≤ 1 ∧
    (GNNBackbone.forward oracle0
      { bGatFresh with warned_edge_ignored := true,
                       warned_edge_v_ignored := true } dAttr1).st.warned_edge_ignored
      = true :=
  ⟨(claim9_notices_at_most_once oracle0 bGcnFresh [dEdgeV, dEdgeV] dEdgeV).1,
   (claim9_notices_at_most_once oracle0
      { bGatFresh with warned_edge_ignored := true, warned_edge_v_ignored := true }
      [] dAttr1).2.2.2 rfl⟩

lemma step_gcn_err (b : GNNBackbone) (d : BatchData) (a : Tensor) (e : String)
    (hct : b.conv_type = "gcn") (hw : d.edge_weight = none) (ha : d.edge_attr = some a)
    (herr : edge_weight_from_attr a b.gcn_edge_mode = .error e) :
    (step_gcn b d).2.2 = none ∧ (step_gcn b d).1.warned_edge_ignored = true := by
  unfold step_gcn
  rw [if_pos ⟨hct, hw⟩]
  simp only [ha, herr]
  split_ifs with h2
  · exact ⟨rfl, rfl⟩
  · exact ⟨rfl, by simpa using h2⟩

/-- Claim C7: for a gcn backbone with no explicit scalar weight, a
failing edge-weight derivation is caught inside input adaptation — the
preparation still succeeds with no edge weight and the original edge
feature tensor intact — the guarding flag is set, and the derivation
notice is emitted at most once over any call sequence. -/
theorem claim7_gcn_derivation_failure_recoverable (o : Oracle) (b : GNNBackbone)
    (d : BatchData) (ds : List BatchData) (a : Tensor) (e : String)
    (hct : b.conv_type = "gcn") (hw : d.edge_weight = none) (ha : d.edge_attr = some a)
    (herr : edge_weight_from_attr a b.gcn_edge_mode = .error e) :
    (prepare_inputs b d).2.2 = .ok ⟨d.x, d.edge_index, some a, none,
      d.batch.getD (List.replicate d.x.length 0)⟩ ∧
    (prepare_inputs b d).1.warned_edge_ignored = true ∧
    countN Notice.gcnDerivFailed (run_seq o b ds).2 ≤ 1 := by
  have hb1 := step_edge_v_core b d
  have herr1 : edge_weight_from_attr a (step_edge_v b d).1.gcn_edge_mode = .error e := by
    rw [hb1.2.2.2.2.1]
    exact herr
  have hgerr := step_gcn_err (step_edge_v b d).1 d a e (hb1.1.trans hct) hw ha herr1
  have hnot4 : ¬(b.conv_type = "gat" ∨ b.conv_type = "gatv2" ∨ b.conv_type = "sage" ∨
      b.conv_type = "gin") := by
    rw [hct]; decide
  have hea : prep_ea b d = some a := (prep_ea_notin4 b d hnot4).trans ha
  have hew : prep_ew b d = none := hgerr.1
  refine ⟨?_, ?_, ?_⟩
  · rw [prep_res_not_gine b d (by rw [hct]; decide), hea, hew]
  · rw [prep_fst]
    exact step_ignored_flag_e_mono _ _ hgerr.2
  · have h := seq_count_e_le o ds b
    unfold countE at h
    omega

/-- Claim C7 witness: a concrete gcn backbone and a zero-edge
two-column edge feature tensor on which the auto-mode normalizer raises;
the preparation still succeeds with no weight. -/
theorem claim7_witness :
    (prepare_inputs bGcnFresh
      { dPlain with edge_attr := some (Tensor.t2 2 []) }).2.2
      = .ok ⟨dPlain.x, dPlain.edge_index, some (Tensor.t2 2 []), none,
          (List.replicate dPlain.x.length 0 : List Nat)⟩ ∧
    (prepare_inputs bGcnFresh
      { dPlain with edge_attr := some (Tensor.t2 2 []) }).1.warned_edge_ignored = true ∧
    countN Notice.gcnDerivFailed
      (run_seq oracle0 bGcnFresh [{ dPlain with edge_attr := some (Tensor.t2 2 []) }]).2
      ≤ 1 :=
  claim7_gcn_derivation_failure_recoverable oracle0 bGcnFresh
    { dPlain with edge_attr := some (Tensor.t2 2 []) }
    [{ dPlain with edge_attr := some (Tensor.t2 2 []) }]
    (Tensor.t2 2 []) "min of an empty tensor" rfl rfl rfl (by decide)

lemma prep_ok_x {b : GNNBackbone} {d : BatchData} {p : Prepared}
    (h : (prepare_inputs b d).2.2 = .ok p) : p.x = d.x := by
  unfold prepare_inputs at h
  split_ifs at h
  cases h
  rfl

lemma fwd_st_built (o : Oracle) (b : GNNBackbone) (d : BatchData) (hb : b.built = true) :
    (GNNBackbone.forward o b d).st = (prepare_inputs b d).1 := by
  have hcore := prep_core b d
  cases hp : (prepare_inputs b d).2.2 with
  | error e => rw [fwd_of_prep_err o b d e hp]
  | ok p =>
    rw [fwd_of_prep_ok o b d p hp]
    exact fwd_core_st_of_iab o _ _ _ p
      (iab_built (prepare_inputs b d).1 p (hcore.2.2.2.2.2.2.1.trans hb))

/-- Claim C2: the layer stack is built exactly once.  On an already
built instance every forward call leaves the conv stack, the built flag,
the readout input width, the recorded edge width, and the hidden-width
list untouched, whatever the batch.  On a fresh instance, a successful
first call builds the stack with widths chained from the observed
node-feature width through the hidden widths, and sets the readout input
width to the sum of the hidden widths. -/
theorem claim2_layers_built_once (o : Oracle) (b : GNNBackbone) (d : BatchData) :
    (b.built = true →
      (GNNBackbone.forward o b d).st.convs = b.convs ∧
      (GNNBackbone.forward o b d).st.built = true ∧
      (GNNBackbone.forward o b d).st.readout_in = b.readout_in ∧
      (GNNBackbone.forward o b d).st.edge_dim = b.edge_dim ∧
      (GNNBackbone.forward o b d).st.hidden_dims = b.hidden_dims) ∧
    (b.built = false → (GNNBackbone.forward o b d).out.isOk = true →
      (GNNBackbone.forward o b d).st.built = true ∧
      (GNNBackbone.forward o b d).st.convs.map (fun c => (c.in_dim, c.out_dim))
        = (d.x.headI.length :: b.hidden_dims).zip b.hidden_dims ∧
      (GNNBackbone.forward o b d).st.readout_in = some b.hidden_dims.sum) := by
  have hcore := prep_core b d
  constructor
  · intro hb
    rw [fwd_st_built o b d hb]
    exact ⟨hcore.2.2.2.2.2.2.2.2.1, hcore.2.2.2.2.2.2.1.trans hb,
      hcore.2.2.2.2.2.2.2.2.2, hcore.2.2.2.2.2.2.2.1, hcore.2.1⟩
  · intro hb hok
    cases hp : (prepare_inputs b d).2.2 with
    | error e =>
      rw [fwd_of_prep_err o b d e hp] at hok
      cases hok
    | ok p =>
      rw [fwd_of_prep_ok o b d p hp] at hok ⊢
      cases hib : infer_and_build (prepare_inputs b d).1 p with
      | error e =>
        rw [fwd_core_of_iab_err o _ _ p e hib] at hok
        cases hok
      | ok st2 =>
        rw [fwd_core_st_of_iab o _ _ _ p hib]
        rcases iab_ok_cases hib with ⟨hbt, _⟩ | ⟨_, ed, hbl⟩
        · rw [hcore.2.2.2.2.2.2.1] at hbt
          rw [hb] at hbt
          cases hbt
        · obtain ⟨ls, hloop, rfl⟩ := build_layers_ok_elim hbl
          refine ⟨rfl, ?_, ?_⟩
          · have hch := build_loop_ok_chain _ _ _ hloop
            rw [prep_ok_x hp, hcore.2.1] at hch
            exact hch
          · rw [hcore.2.1]
  
/-- Claim C2 witness: on a concrete built instance the stack is reused
unchanged, and a concrete fresh instance builds the chained stack on its
first successful call. -/
theorem claim2_witness :
    ((GNNBackbone.forward oracle0
        { bGcnFresh with built := true, convs := [⟨ConvKind.gcn, 1, 2, none⟩],
                         readout_in := some 2 } dPlain).st.convs
      = ({ bGcnFresh with built := true, convs := [⟨ConvKind.gcn, 1, 2, none⟩],
                          readout_in := some 2 } : GNNBackbone).convs) ∧
    ((GNNBackbone.forward oracle0 bGcnFresh dPlain).st.convs.map
        (fun c => (c.in_dim, c.out_dim))
      = (dPlain.x.headI.length :: bGcnFresh.hidden_dims).zip bGcnFresh.hidden_dims) :=
  ⟨((claim2_layers_built_once oracle0
      { bGcnFresh with built := true, convs := [⟨ConvKind.gcn, 1, 2, none⟩],
                       readout_in := some 2 } dPlain).1 rfl).1,
   ((claim2_layers_built_once oracle0 bGcnFresh dPlain).2 rfl (by decide)).2.1⟩

lemma build_layers_ok_of_loop {b : GNNBackbone} {i : Nat} {ed : Option Nat}
    {ls : List ConvLayer} (h : build_loop b.conv_type ed i b.hidden_dims = .ok ls) :
    build_layers b i ed = .ok { b with convs := ls,
                                       readout_in := some b.hidden_dims.sum,
                                       edge_dim := ed, built := true } := by
  unfold build_layers
  rw [h]
  rfl

lemma fwd_core_out_ok (o : Oracle) (st st2 : GNNBackbone) (w : List Notice) (p : Prepared)
    (h : infer_and_build st p = .ok st2) (hc : st2.convs ≠ []) :
    (forward_core o st w p).out.isOk = true := by
  unfold forward_core
  rw [h]
  cases hh2 : hcat (rc_of o st2 p).1 with
  | error e =>
    exfalso
    have h0 : (rc_of o st2 p).1.length = st2.convs.length :=
      run_convs_fst_len o p.edge_index p.edge_weight (gine_ea st2 p) st2.convs p.x
    cases hrc : (rc_of o st2 p).1 with
    | nil =>
      rw [hrc] at h0
      simp at h0
      exact hc (List.length_eq_zero.mp h0.symm)
    | cons m ms =>
      rw [hrc] at hh2
      simp [hcat] at hh2
  | ok hc2 => by_cases hr : st2.residue_logits = true <;> simp [hh2, hr, Except.isOk, Except.toBool]

/-- Claim C3 counterexample: a gine backbone under the fail policy, fed
a batch with no edge features but with an edge_v field, raises as
claimed but does not leave the instance state unchanged: the one-time
edge_v notice flag is set by the failing call. -/
theorem claim3_counterexample :
    (GNNBackbone.forward oracle0 bGineFresh dEdgeV).out.isOk = false ∧
    (GNNBackbone.forward oracle0 bGineFresh dEdgeV).st ≠ bGineFresh := by
  constructor
  · decide
  · decide

/-- Claim C3 (amended): for a gine backbone under the fail policy, every
forward call on a batch with no edge feature tensor raises before any
layer executes and before any layer is built: the trace is empty, and
the built flag, conv stack and recorded edge width are unchanged (only
the one-time notice flags may be newly set).  A subsequent call on the
resulting state whose batch does carry an edge feature tensor succeeds,
provided the instance is unbuilt and the hidden-width list is
nonempty. -/
theorem claim3_gine_missing_edge_raises_per_call (o : Oracle) (b : GNNBackbone)
    (d : BatchData) (hct : b.conv_type = "gine")
    (hz : b.gine_missing_edge_policy ≠ "zeros") (ha : d.edge_attr = none) :
    (GNNBackbone.forward o b d).out.isOk = false ∧
    (GNNBackbone.forward o b d).trace = [] ∧
    (GNNBackbone.forward o b d).st.built = b.built ∧
    (GNNBackbone.forward o b d).st.convs = b.convs ∧
    (GNNBackbone.forward o b d).st.edge_dim = b.edge_dim ∧
    (∀ (d2 : BatchData) (a2 : Tensor), d2.edge_attr = some a2 → b.built = false →
      b.hidden_dims ≠ [] →
      (GNNBackbone.forward o (GNNBackbone.forward o b d).st d2).out.isOk = true) := by
  have hcore := prep_core b d
  have hp := prep_res_gine_missing b d hct hz ha
  rw [fwd_of_prep_err o b d _ hp]
  refine ⟨rfl, rfl, hcore.2.2.2.2.2.2.1, hcore.2.2.2.2.2.2.2.2.1,
    hcore.2.2.2.2.2.2.2.1, ?_⟩
  intro d2 a2 ha2 hb hh
  have hsct : (prepare_inputs b d).1.conv_type = "gine" := hcore.1.trans hct
  have hsb : (prepare_inputs b d).1.built = false := hcore.2.2.2.2.2.2.1.trans hb
  have hsh : (prepare_inputs b d).1.hidden_dims ≠ [] := by
    rw [hcore.2.1]; exact hh
  have hcore2 := prep_core (prepare_inputs b d).1 d2
  have hp2 := prep_res_gine_some (prepare_inputs b d).1 d2 a2 hsct ha2
  rw [fwd_of_prep_ok o _ d2 _ hp2]
  have hs2ct : (prepare_inputs (prepare_inputs b d).1 d2).1.conv_type = "gine" :=
    hcore2.1.trans hsct
  have hs2b : (prepare_inputs (prepare_inputs b d).1 d2).1.built = false :=
    hcore2.2.2.2.2.2.2.1.trans hsb
  have hs2h : (prepare_inputs (prepare_inputs b d).1 d2).1.hidden_dims ≠ [] := by
    rw [hcore2.2.1]; exact hsh
  have hiab := iab_gine_some (prepare_inputs (prepare_inputs b d).1 d2).1
    (⟨d2.x, d2.edge_index, some a2, d2.edge_weight,
      d2.batch.getD (List.replicate d2.x.length 0)⟩ : Prepared)
    a2 hs2b hs2ct rfl
  obtain ⟨cs, hcs, hk⟩ := build_loop_gine
    (prepare_inputs (prepare_inputs b d).1 d2).1.hidden_dims d2.x.headI.length
    (if a2.dim = 2 then a2.lastSize else 1)
  have hcs2 : build_loop (prepare_inputs (prepare_inputs b d).1 d2).1.conv_type
      (some (if a2.dim = 2 then a2.lastSize else 1)) d2.x.headI.length
      (prepare_inputs (prepare_inputs b d).1 d2).1.hidden_dims = .ok cs := by
    rw [hs2ct]; exact hcs
  have hbl := build_layers_ok_of_loop hcs2
  have hlen := build_loop_ok_len _ _ _ hcs2
  have hcne : cs ≠ [] := by
    intro hc0
    rw [hc0] at hlen
    exact hs2h (List.length_eq_zero.mp hlen.symm)
  exact fwd_core_out_ok o _ _ _ _ (hiab.trans hbl) hcne

/-- Claim C3 witness: concrete gine backbone, failing call followed by a
succeeding call that carries edge features. -/
theorem claim3_witness :
    (GNNBackbone.forward oracle0 bGineFresh dPlain).out.isOk = false ∧
    (GNNBackbone.forward oracle0
      (GNNBackbone.forward oracle0 bGineFresh dPlain).st dAttr1).out.isOk = true :=
  ⟨(claim3_gine_missing_edge_raises_per_call oracle0 bGineFresh dPlain
      rfl (by decide) rfl).1,
   (claim3_gine_missing_edge_raises_per_call oracle0 bGineFresh dPlain
      rfl (by decide) rfl).2.2.2.2.2 dAttr1 (Tensor.t1 [5, 7]) rfl rfl (by decide)⟩

lemma fwd_core_trace_of_iab (o : Oracle) (st st2 : GNNBackbone) (w : List Notice)
    (p : Prepared) (h : infer_and_build st p = .ok st2) :
    (forward_core o st w p).trace = (rc_of o st2 p).2 := by
  unfold forward_core
  rw [h]
  cases hh2 : hcat (rc_of o st2 p).1 with
  | error e => simp [hh2]
  | ok hc2 => by_cases hr : st2.residue_logits = true <;> simp [hh2, hr]

/-- Claim C6 counterexample: a gine backbone handed a one-dimensional
edge feature tensor passes that tensor to the layer as-is, with its
one-dimensional shape — no reshape to E x 1 happens before the layer
call. -/
theorem claim6_counterexample :
    ((GNNBackbone.forward oracle0 bGineFresh dAttr1).trace.map ConvInput.attrOf)
      = [some (Tensor.t1 [5, 7])] ∧
    some (Tensor.t1 [5, 7]) ≠ some (Tensor.t2 1 [[5], [7]]) := by
  constructor
  · decide
  · decide

/-- Claim C6 (amended): for a gine backbone, whenever the batch carries
an edge feature tensor, that exact tensor — unmodified and never
reshaped, even when one-dimensional — is the edge-feature argument of
every convolution layer call (only the inferred edge width treats a
one-dimensional tensor as width 1 at build time). -/
theorem claim6_gine_attr_passed_unmodified (o : Oracle) (b : GNNBackbone) (d : BatchData)
    (a : Tensor) (hct : b.conv_type = "gine") (hb : b.built = false)
    (ha : d.edge_attr = some a) :
    ∀ inp ∈ (GNNBackbone.forward o b d).trace,
      ∃ hx, inp = ConvInput.withAttr hx d.edge_index (some a) := by
  have hcore := prep_core b d
  have hp := prep_res_gine_some b d a hct ha
  rw [fwd_of_prep_ok o b d _ hp]
  have hsct : (prepare_inputs b d).1.conv_type = "gine" := hcore.1.trans hct
  have hsb : (prepare_inputs b d).1.built = false := hcore.2.2.2.2.2.2.1.trans hb
  have hiab := iab_gine_some (prepare_inputs b d).1
    (⟨d.x, d.edge_index, some a, d.edge_weight,
      d.batch.getD (List.replicate d.x.length 0)⟩ : Prepared) a hsb hsct rfl
  obtain ⟨cs, hcs, hk⟩ := build_loop_gine (prepare_inputs b d).1.hidden_dims
    d.x.headI.length (if a.dim = 2 then a.lastSize else 1)
  have hcs2 : build_loop (prepare_inputs b d).1.conv_type
      (some (if a.dim = 2 then a.lastSize else 1)) d.x.headI.length
      (prepare_inputs b d).1.hidden_dims = .ok cs := by
    rw [hsct]; exact hcs
  have hbl := build_layers_ok_of_loop hcs2
  have hiab2 := hiab.trans hbl
  rw [fwd_core_trace_of_iab o _ _ _ _ hiab2]
  intro inp hinp
  have hea : gine_ea { (prepare_inputs b d).1 with
                         convs := cs,
                         readout_in := some (prepare_inputs b d).1.hidden_dims.sum,
                         edge_dim := some (if a.dim = 2 then a.lastSize else 1),
                         built := true }
      (⟨d.x, d.edge_index, some a, d.edge_weight,
        d.batch.getD (List.replicate d.x.length 0)⟩ : Prepared) = some a := by
    unfold gine_ea
    rw [if_neg]
    intro hcon
    exact Option.noConfusion hcon.2.1
  unfold rc_of at hinp
  rw [hea] at hinp
  exact run_convs_attr o _ _ _ cs _ hk inp hinp

/-- Claim C6 witness: the amended statement applied to the concrete
layer input produced by a gine backbone on a one-dimensional edge
feature tensor. -/
theorem claim6_witness :
    ∃ hx, ConvInput.withAttr [[(1 : ℚ)], [2]] [(0, 1), (1, 0)] (some (Tensor.t1 [5, 7]))
      = ConvInput.withAttr hx dAttr1.edge_index (some (Tensor.t1 [5, 7])) :=
  claim6_gine_attr_passed_unmodified oracle0 bGineFresh dAttr1 (Tensor.t1 [5, 7])
    rfl rfl rfl (ConvInput.withAttr [[(1 : ℚ)], [2]] [(0, 1), (1, 0)]
      (some (Tensor.t1 [5, 7]))) (by decide)

lemma fwd_core_out_pool (o : Oracle) (st st2 : GNNBackbone) (w : List Notice)
    (p : Prepared) (hcm : List (List ℚ)) (h : infer_and_build st p = .ok st2)
    (hres : st2.residue_logits = false) (hhc : hcat (rc_of o st2 p).1 = .ok hcm) :
    (forward_core o st w p).out = .ok ((global_mean_pool hcm p.batchIdx).map o.lin) := by
  unfold forward_core
  rw [h]
  cases hh2 : hcat (rc_of o st2 p).1 with
  | error e => rw [hh2] at hhc; cases hhc
  | ok hc2 =>
    rw [hh2] at hhc
    cases hhc
    simp [hh2, hres]

lemma fwd_ignored_char (o : Oracle) (b : GNNBackbone) (d : BatchData) (bv : List Nat)
    (hct : b.conv_type = "gat" ∨ b.conv_type = "gatv2" ∨ b.conv_type = "sage" ∨
      b.conv_type = "gin")
    (hb : b.built = false) (hh : b.hidden_dims ≠ []) (hres : b.residue_logits = false)
    (hbv : d.batch = some bv) :
    ∃ cs hcm,
      build_loop b.conv_type none d.x.headI.length b.hidden_dims = .ok cs ∧
      (∀ c ∈ cs, c.kind ≠ ConvKind.gcn ∧ c.kind ≠ ConvKind.gine) ∧
      hcat (run_convs o d.edge_index d.edge_weight none d.x cs).1 = .ok hcm ∧
      (GNNBackbone.forward o b d).trace
        = (run_convs o d.edge_index d.edge_weight none d.x cs).2 ∧
      (GNNBackbone.forward o b d).out = .ok ((global_mean_pool hcm bv).map o.lin) := by
  have hngcn : b.conv_type ≠ "gcn" := by
    rcases hct with h | h | h | h <;> rw [h] <;> decide
  have hngine : b.conv_type ≠ "gine" := by
    rcases hct with h | h | h | h <;> rw [h] <;> decide
  have hcore := prep_core b d
  have hp : (prepare_inputs b d).2.2
      = .ok ⟨d.x, d.edge_index, none, d.edge_weight, bv⟩ := by
    rw [prep_res_not_gine b d hngine, prep_ea_in4 b d hct, prep_ew_not_gcn b d hngcn, hbv]
    rfl
  rw [fwd_of_prep_ok o b d _ hp]
  have hst1ct : (prepare_inputs b d).1.conv_type = b.conv_type := hcore.1
  have hst1b : (prepare_inputs b d).1.built = false := hcore.2.2.2.2.2.2.1.trans hb
  have hst1h : (prepare_inputs b d).1.hidden_dims = b.hidden_dims := hcore.2.1
  have hst1res : (prepare_inputs b d).1.residue_logits = false := hcore.2.2.2.1.trans hres
  have hiab := iab_nongine (prepare_inputs b d).1
    (⟨d.x, d.edge_index, none, d.edge_weight, bv⟩ : Prepared) hst1b
    (by rw [hst1ct]; exact hngine)
  obtain ⟨cs, hcs, hkinds⟩ := build_loop_ignored hct b.hidden_dims d.x.headI.length
  have hcsS : build_loop (prepare_inputs b d).1.conv_type none d.x.headI.length
      (prepare_inputs b d).1.hidden_dims = .ok cs := by
    rw [hst1ct, hst1h]; exact hcs
  have hbl := build_layers_ok_of_loop hcsS
  have hiab2 : infer_and_build (prepare_inputs b d).1
      (⟨d.x, d.edge_index, none, d.edge_weight, bv⟩ : Prepared)
      = .ok { (prepare_inputs b d).1 with
                convs := cs,
                readout_in := some (prepare_inputs b d).1.hidden_dims.sum,
                edge_dim := none, built := true } := hiab.trans hbl
  have hgea : gine_ea
      { (prepare_inputs b d).1 with
          convs := cs,
          readout_in := some (prepare_inputs b d).1.hidden_dims.sum,
          edge_dim := none, built := true }
      (⟨d.x, d.edge_index, none, d.edge_weight, bv⟩ : Prepared) = none := by
    unfold gine_ea
    split_ifs with hcon
    · exfalso
      have hcon2 : (prepare_inputs b d).1.conv_type = "gine" := hcon.1
      rw [hst1ct] at hcon2
      exact hngine hcon2
    · rfl
  have hrc_eq : rc_of o
      { (prepare_inputs b d).1 with
          convs := cs,
          readout_in := some (prepare_inputs b d).1.hidden_dims.sum,
          edge_dim := none, built := true }
      (⟨d.x, d.edge_index, none, d.edge_weight, bv⟩ : Prepared)
      = run_convs o d.edge_index d.edge_weight none d.x cs := by
    unfold rc_of
    rw [hgea]
  obtain ⟨hcm, hhc⟩ : ∃ hcm,
      hcat (run_convs o d.edge_index d.edge_weight none d.x cs).1 = .ok hcm := by
    have hlen : (run_convs o d.edge_index d.edge_weight none d.x cs).1.length
        = cs.length := run_convs_fst_len o d.edge_index d.edge_weight none cs d.x
    have hcne : cs ≠ [] := by
      intro hc0
      have hl := build_loop_ok_len _ _ _ hcs
      rw [hc0] at hl
      have h0 : b.hidden_dims.length = 0 := by rw [← hl]; rfl
      exact hh (List.length_eq_zero.mp h0)
    cases hrc : (run_convs o d.edge_index d.edge_weight none d.x cs).1 with
    | nil =>
      exfalso
      rw [hrc] at hlen
      have h0 : cs.length = 0 := by rw [← hlen]; rfl
      exact hcne (List.length_eq_zero.mp h0)
    | cons m ms =>
      exact ⟨ms.foldl (fun a b2 => List.zipWith (fun r s => r ++ s) a b2) m, rfl⟩
  refine ⟨cs, hcm, hcs, hkinds, hhc, ?_, ?_⟩
  · rw [fwd_core_trace_of_iab o _ _ _ _ hiab2, hrc_eq]
  · have hout := fwd_core_out_pool o _ _ (prepare_inputs b d).2.1
      (⟨d.x, d.edge_index, none, d.edge_weight, bv⟩ : Prepared) hcm hiab2
      hst1res (by rw [hrc_eq]; exact hhc)
    rw [hout]

/-- Claim C8: an edge-information-ignored backbone (gat, gatv2, sage or
gin, here on its first call, graph-level output) succeeds on a valid
batch carrying edge features: with graph indices covering 0..B-1 the
output has B rows of the configured output width (given the readout
collaborator respects its width contract), every layer receives only
node features and connectivity, and both the layer-input trace and the
output are unchanged when the edge-feature field of the batch is
replaced by anything else. -/
theorem claim8_ignored_operators_independent_of_edge_attr (o : Oracle) (b : GNNBackbone)
    (d : BatchData) (a : Tensor) (bv : List Nat) (B : Nat)
    (hct : b.conv_type = "gat" ∨ b.conv_type = "gatv2" ∨ b.conv_type = "sage" ∨
      b.conv_type = "gin")
    (hb : b.built = false) (hh : b.hidden_dims ≠ []) (hres : b.residue_logits = false)
    (_ha : d.edge_attr = some a) (hbv : d.batch = some bv)
    (hvB : ∀ v ∈ bv, v < B) (hmem : B - 1 ∈ bv) (hBpos : 0 < B)
    (hlin : ∀ v, (o.lin v).length = b.out_dim) :
    (∃ g, (GNNBackbone.forward o b d).out = .ok g ∧ g.length = B ∧
      ∀ row ∈ g, row.length = b.out_dim) ∧
    (∀ inp ∈ (GNNBackbone.forward o b d).trace, inp.isPlain = true) ∧
    (∀ a2 : Option Tensor,
      (GNNBackbone.forward o b { d with edge_attr := a2 }).trace
        = (GNNBackbone.forward o b d).trace ∧
      (GNNBackbone.forward o b { d with edge_attr := a2 }).out
        = (GNNBackbone.forward o b d).out) := by
  obtain ⟨cs, hcm, hcs, hkinds, hhc, htr, hout⟩ := fwd_ignored_char o b d bv hct hb hh hres hbv
  have hfold : bv.foldl max 0 = B - 1 := by
    have hle : bv.foldl max 0 ≤ B - 1 :=
      foldl_max_le bv 0 (B - 1) (fun v hv => by have := hvB v hv; omega) (by omega)
    have hge : B - 1 ≤ bv.foldl max 0 := foldl_max_ge_mem bv 0 (B - 1) hmem
    omega
  refine ⟨⟨(global_mean_pool hcm bv).map o.lin, hout, ?_, ?_⟩, ?_, ?_⟩
  · rw [List.length_map, pool_len, hfold]
    omega
  · intro row hrow
    obtain ⟨v, _, rfl⟩ := List.mem_map.mp hrow
    exact hlin v
  · rw [htr]
    exact run_convs_plain o d.edge_index d.edge_weight none cs d.x hkinds
  · intro a2
    obtain ⟨cs2, hcm2, hcs2, hkinds2, hhc2, htr2, hout2⟩ :=
      fwd_ignored_char o b { d with edge_attr := a2 } bv hct hb hh hres hbv
    have hcs2d : build_loop b.conv_type none d.x.headI.length b.hidden_dims
        = .ok cs2 := hcs2
    have hcseq : cs2 = cs := by
      have := hcs2d.symm.trans hcs
      exact (Except.ok.injEq _ _).mp this
    subst hcseq
    have hhc2d : hcat (run_convs o d.edge_index d.edge_weight none d.x cs2).1
        = .ok hcm2 := hhc2
    have hcmeq : hcm2 = hcm := by
      have := hhc2d.symm.trans hhc
      exact (Except.ok.injEq _ _).mp this
    subst hcmeq
    have htr2d : (GNNBackbone.forward o b { d with edge_attr := a2 }).trace
        = (run_convs o d.edge_index d.edge_weight none d.x cs2).2 := htr2
    exact ⟨htr2d.trans htr.symm, hout2.trans hout.symm⟩

/-- A concrete batch for the C8 witness: two nodes in one graph, a
three-wide edge feature tensor, explicit graph-assignment index. -/
def dGat8 : BatchData where
  x := [[1], [2]]
  edge_index := [(0, 1)]
  edge_attr := some (Tensor.t2 3 [[1, 2, 3]])
  edge_weight := none
  edge_v := none
  batch := some [0, 0]

/-- Claim C8 witness: the statement instantiated on a concrete gat
backbone and batch with B = 1. -/
theorem claim8_witness :
    (∃ g, (GNNBackbone.forward oracle0 bGatFresh dGat8).out = .ok g ∧ g.length = 1 ∧
      ∀ row ∈ g, row.length = bGatFresh.out_dim) ∧
    (∀ inp ∈ (GNNBackbone.forward oracle0 bGatFresh dGat8).trace, inp.isPlain = true) ∧
    (∀ a2 : Option Tensor,
      (GNNBackbone.forward oracle0 bGatFresh { dGat8 with edge_attr := a2 }).trace
        = (GNNBackbone.forward oracle0 bGatFresh dGat8).trace ∧
      (GNNBackbone.forward oracle0 bGatFresh { dGat8 with edge_attr := a2 }).out
        = (GNNBackbone.forward oracle0 bGatFresh dGat8).out) :=
  claim8_ignored_operators_independent_of_edge_attr oracle0 bGatFresh dGat8
    (Tensor.t2 3 [[1, 2, 3]]) [0, 0] 1 (by decide) rfl (by decide) rfl rfl rfl
    (by decide) (by decide) (by decide) (fun v => rfl)
